import Mathlib

/-!
GPAC generic file input filter (src/filters_imp/file_in.c).

A shallow embedding of the file input filter: the C strings it scans and
patches in place, the filter context, the calls it makes to the filter
session and to the file system, and the five callbacks
(initialize, finalize, probe_url, process_event, process).

Conventions of the embedding.

* A byte is a natural number; a C buffer is a list of bytes that is followed
  by an implicit terminating NUL. The C string at offset p of a buffer is the
  run of bytes from p up to the first NUL.
* A pointer into a buffer is an offset; a NULL pointer is none.
* Calls to the host (filter session, stdio, allocator) are recorded, in order,
  in a list of effects that each callback returns with its result.
-/

namespace FileIn

/-! ## C strings -/

/-- ASCII bytes of a string literal. -/
def bytes (s : String) : List Nat := s.toList.map Char.toNat

/-- The C string held in a buffer from offset p on: the bytes before the first NUL. -/
def cstr (buf : List Nat) (p : Nat) : List Nat :=
  (buf.drop p).takeWhile (fun b => b != 0)

/-- C tolower in the C locale. -/
def tolower (b : Nat) : Nat := if 65 ≤ b ∧ b ≤ 90 then b + 32 else b

/-- C strchr on a buffer: offset of the first byte equal to c in the C string at
offset 0 (the terminator itself is found when c is NUL). -/
def strchr : List Nat → Nat → Option Nat
  | [], c => if c = 0 then some 0 else none
  | b :: bs, c =>
    if b = c then some 0
    else if b = 0 then none
    else (strchr bs c).map (· + 1)

/-- Loop of strrchr: i is the offset of the head of the remaining buffer and
last the offset of the latest match seen so far. -/
def strrchrFrom : List Nat → Nat → Nat → Option Nat → Option Nat
  | [], c, i, last => if c = 0 then some i else last
  | b :: bs, c, i, last =>
    if b = 0 then (if c = 0 then some i else last)
    else strrchrFrom bs c (i + 1) (if b = c then some i else last)

/-- C strrchr on a buffer: offset of the last byte equal to c in the C string
at offset 0. -/
def strrchr (buf : List Nat) (c : Nat) : Option Nat := strrchrFrom buf c 0 none

/-- C stricmp (strcasecmp) on two C strings given by their contents. -/
def stricmp : List Nat → List Nat → Int
  | [], [] => 0
  | [], b :: _ => - (tolower b : Int)
  | a :: _, [] => (tolower a : Int)
  | a :: as, b :: bs =>
    if tolower a = tolower b then stricmp as bs else (tolower a : Int) - (tolower b : Int)

/-- C strnicmp (strncasecmp) on two C strings given by their contents. -/
def strnicmp : List Nat → List Nat → Nat → Int
  | _, _, 0 => 0
  | [], [], _ + 1 => 0
  | [], b :: _, _ + 1 => - (tolower b : Int)
  | a :: _, [], _ + 1 => (tolower a : Int)
  | a :: as, b :: bs, n + 1 =>
    if tolower a = tolower b then strnicmp as bs n else (tolower a : Int) - (tolower b : Int)

/-- Byte-wise prefix test used by strstr. -/
def startsWith : List Nat → List Nat → Bool
  | _, [] => true
  | [], _ :: _ => false
  | a :: as, b :: bs => a == b && startsWith as bs

/-- C strstr on two C strings given by their contents: offset of the first
occurrence of the needle in the haystack. -/
def strstr : List Nat → List Nat → Option Nat
  | [], needle => if startsWith [] needle then some 0 else none
  | a :: as, needle =>
    if startsWith (a :: as) needle then some 0 else (strstr as needle).map (· + 1)

/-! ## Data model -/

/-- Error codes returned by the callbacks. -/
inductive GF_Err
  | GF_OK
  | GF_EOS
  | GF_BAD_PARAM
  | GF_NOT_SUPPORTED
  | GF_URL_ERROR
  | GF_SERVICE_ERROR
  deriving DecidableEq, Repr

/-- Verdict of the URL probe. -/
inductive GF_FilterProbeScore
  | GF_FPROBE_NOT_SUPPORTED
  | GF_FPROBE_SUPPORTED
  deriving DecidableEq, Repr

/-- Property keys set on the output PID. -/
inductive PidProp
  | GF_PROP_PID_FILEPATH
  | GF_PROP_PID_URL
  | GF_PROP_PID_FILE_EXT
  | GF_PROP_PID_MIME
  deriving DecidableEq, Repr

/-- An open stdio stream: the bytes of the file and the read position. -/
structure FILE where
  content : List Nat
  pos : Nat
  deriving DecidableEq, Repr

/-- A packet as built by the setter calls of filein_process. The field data is
the buffer the packet points to (shared with the filter when shared is true)
and data_size the size it was declared with. -/
structure GF_FilterPacket where
  pid : Nat
  data : List Nat
  data_size : Nat
  shared : Bool
  cts : Option Nat
  framing : Option (Bool × Bool)
  sap : Option Nat
  byte_offset : Option Nat
  deriving DecidableEq, Repr

/-- Calls made to the host, in the order they are made. -/
inductive Effect
  | setup_failure (e : GF_Err)
  | fopen (path : List Nat)
  | fseek_end
  | ftell
  | fseek_set
  | file_exists (path : List Nat)
  | malloc (size : Nat)
  | fread (size : Nat)
  | fclose
  | free
  | pid_new
  | pid_set_property (pid : Option Nat) (key : PidProp) (value : List Nat)
  | pck_new_shared (pid : Nat) (data_size : Nat)
  | pck_send (pck : GF_FilterPacket)
  | pid_set_eos (pid : Nat)
  deriving DecidableEq, Repr

/-- What the host answers during one callback: the file system reached through
gf_fopen (the contents of the file when the open succeeds) and gf_file_exists,
the PID returned by gf_filter_pid_new (none for NULL) and whether
gf_filter_pck_new_shared returns a packet. -/
structure Host where
  gf_fopen : List Nat → Option (List Nat)
  gf_file_exists : List Nat → Bool
  gf_filter_pid_new : Option Nat
  gf_filter_pck_new_shared : Bool

/-- The filter context GF_FileInCtx. The buffers src and block are none when
the pointer is NULL; block holds the bytes of the allocation. -/
structure GF_FileInCtx where
  src : Option (List Nat)
  block_size : Nat
  pid : Option Nat
  file : Option FILE
  file_size : Nat
  block : Option (List Nat)
  start : Nat
  deriving DecidableEq, Repr

/-- A context as the session hands it to initialize: zeroed, options set. -/
def freshCtx (src : Option (List Nat)) (block_size : Nat) : GF_FileInCtx :=
  { src := src, block_size := block_size, pid := none, file := none, file_size := 0,
    block := none, start := 0 }

/-- Value of the first property set under a key in a list of effects. -/
def propOf (key : PidProp) : List Effect → Option (List Nat)
  | [] => none
  | Effect.pid_set_property _ k v :: rest => if k = key then some v else propOf key rest
  | _ :: rest => propOf key rest

/-! ## filein_declare_pid -/

/-- The probe_data branch of filein_declare_pid (source lines 75 to 93) on the
C string held in the probe buffer: the MIME type chosen, or none. -/
def filein_sniff (p : List Nat) : Option (List Nat) :=
  if (strstr p (bytes "<XMT-A")).isSome || (strstr p (bytes ":mpeg4:xmta:")).isSome then
    some (bytes "application/x-xmt")
  else if (strstr p (bytes "InitialObjectDescriptor")).isSome
      || ((strstr p (bytes "EXTERNPROTO")).isSome && (strstr p (bytes "gpac:")).isSome) then
    some (bytes "application/x-bt")
  else if (strstr p (bytes "#VRML V2.0 utf8")).isSome then
    some (bytes "model/vrml")
  else if (strstr p (bytes "#X3D V3.0")).isSome then
    some (bytes "model/x3d+vrml")
  else if (strstr p (bytes "<X3D")).isSome || (strstr p (bytes "/x3d-3.0.dtd")).isSome then
    some (bytes "model/x3d+xml")
  else if (strstr p (bytes "<saf")).isSome || (strstr p (bytes "mpeg4:SAF:2005")).isSome
      || (strstr p (bytes "mpeg4:LASeR:2005")).isSome then
    some (bytes "application/x-LASeR+xml")
  else if (strstr p (bytes "<svg")).isSome || (strstr p (bytes "w3.org/2000/svg")).isSome then
    some (bytes "application/widget")
  else none

/-- Result of filein_declare_pid: the url buffer as the call leaves it, the
PID returned and the host calls made. -/
structure DeclareOut where
  url : List Nat
  pid : Option Nat
  trace : List Effect
  deriving DecidableEq, Repr

/-- The extension scan of filein_declare_pid (source lines 63 to 71): the url
buffer after the scan and the offset ext points to. -/
def filein_ext_scan (url : List Nat) : List Nat × Option Nat :=
  let r : List Nat × Option Nat :=
    match strrchr url 46 with
    | some e =>
      if stricmp (cstr url e) (bytes ".gz") = 0 then
        let u1 := url.set e 0
        let anext := strrchr u1 46
        let u2 := u1.set e 46
        (u2, anext)
      else (url, some e)
    | none => (url, none)
  (r.1, r.2.map (· + 1))

/-- The function filein_declare_pid. -/
def filein_declare_pid (h : Host) (url : List Nat) (local_file : Option (List Nat))
    (mime_type : Option (List Nat)) (probe_data : Option (List Nat)) (_probe_size : Nat) :
    DeclareOut :=
  let pid := h.gf_filter_pid_new
  let t1 : List Effect :=
    match local_file with
    | some lf => [Effect.pid_set_property pid PidProp.GF_PROP_PID_FILEPATH (cstr lf 0)]
    | none => []
  let t2 : List Effect := [Effect.pid_set_property pid PidProp.GF_PROP_PID_URL (cstr url 0)]
  let scan := filein_ext_scan url
  let mime : Option (List Nat) :=
    match mime_type, probe_data with
    | none, some pd => filein_sniff (cstr pd 0)
    | m, _ => m
  let t3 : List Effect :=
    match scan.2 with
    | some e => [Effect.pid_set_property pid PidProp.GF_PROP_PID_FILE_EXT (cstr scan.1 e)]
    | none => []
  let t4 : List Effect :=
    match mime with
    | some m => [Effect.pid_set_property pid PidProp.GF_PROP_PID_MIME m]
    | none => []
  { url := scan.1, pid := pid, trace := Effect.pid_new :: (t1 ++ t2 ++ t3 ++ t4) }

/-! ## Locator handling shared by initialize and probe_url -/

/-- The guarded store of the source: when the pointer is not NULL, write byte v
at its offset. -/
def poke (buf : List Nat) (p : Option Nat) (v : Nat) : List Nat :=
  match p with
  | some i => buf.set i v
  | none => buf

/-- Offset past a leading file scheme, as both callbacks compute it: 7 after
file://, else 5 after file:, else 0 (comparison ignores case). -/
def skip_file_scheme (s : List Nat) : Nat :=
  if strnicmp s (bytes "file://") 7 = 0 then 7
  else if strnicmp s (bytes "file:") 5 = 0 then 5
  else 0

/-! ## filein_initialize -/

/-- The function filein_initialize: the context after the call, the error code
and the host calls made. -/
def filein_initialize (h : Host) (ctx : GF_FileInCtx) : GF_FileInCtx × GF_Err × List Effect :=
  match ctx.src with
  | none => (ctx, GF_Err.GF_BAD_PARAM, [])
  | some s0 =>
    if strnicmp (cstr s0 0) (bytes "file:/") 6 ≠ 0 ∧ (strstr (cstr s0 0) (bytes "://")).isSome then
      (ctx, GF_Err.GF_NOT_SUPPORTED, [Effect.setup_failure GF_Err.GF_NOT_SUPPORTED])
    else
      let frag_par := strchr s0 35
      let s1 := poke s0 frag_par 0
      let cgi_par := strchr s1 63
      let s2 := poke s1 cgi_par 0
      let src := skip_file_scheme (cstr s2 0)
      let path := cstr s2 src
      match h.gf_fopen path with
      | none =>
        let s3 := poke s2 frag_par 35
        let s4 := poke s3 cgi_par 63
        ({ ctx with src := some s4, file := none }, GF_Err.GF_URL_ERROR,
          [Effect.fopen path, Effect.setup_failure GF_Err.GF_URL_ERROR])
      | some content =>
        let s3 := poke s2 frag_par 35
        let s4 := poke s3 cgi_par 63
        let size := (ctx.block_size + 1) % 2 ^ 32
        ({ ctx with src := some s4, file := some { content := content, pos := 0 },
                    file_size := content.length % 2 ^ 64,
                    block := some (List.replicate size 0) },
          GF_Err.GF_OK,
          [Effect.fopen path, Effect.fseek_end, Effect.ftell, Effect.fseek_set,
           Effect.malloc size])

/-! ## filein_finalize -/

/-- The function filein_finalize: the context after the call and the host
calls made. -/
def filein_finalize (ctx : GF_FileInCtx) : GF_FileInCtx × List Effect :=
  let t1 : List Effect := if ctx.file.isSome then [Effect.fclose] else []
  let t2 : List Effect := if ctx.block.isSome then [Effect.free] else []
  (ctx, t1 ++ t2)

/-! ## filein_probe_url -/

/-- The function filein_probe_url: the url buffer after the call, the verdict
and the host calls made. -/
def filein_probe_url (h : Host) (url : List Nat) (_mime_type : Option (List Nat)) :
    List Nat × GF_FilterProbeScore × List Effect :=
  let src := skip_file_scheme (cstr url 0)
  let frag_par := strchr url 35
  let u1 := poke url frag_par 0
  let cgi_par := strchr u1 63
  let u2 := poke u1 cgi_par 0
  let path := cstr u2 src
  let res := h.gf_file_exists path
  let u3 := poke u2 frag_par 35
  let u4 := poke u3 cgi_par 63
  (u4,
   if res then GF_FilterProbeScore.GF_FPROBE_SUPPORTED
   else GF_FilterProbeScore.GF_FPROBE_NOT_SUPPORTED,
   [Effect.file_exists path])

/-! ## filein_process_event -/

/-- Event types: the two the filter looks at, and every other one by its code. -/
inductive GF_FEventType
  | GF_FEVT_PLAY
  | GF_FEVT_STOP
  | other (code : Nat)
  deriving DecidableEq, Repr

/-- The fields of GF_FilterEvent the filter reads. The start range is a double
in the source; it is held here as the exact rational it denotes. -/
structure GF_FilterEvent where
  on_pid : Option Nat
  type : GF_FEventType
  start_range : ℚ
  deriving DecidableEq

/-- Conversion of a double to u32: truncation toward zero; none when the
truncated value is not a u32, which C leaves undefined. -/
def double_to_u32 (x : ℚ) : Option Nat :=
  let t : Int := Int.tdiv x.num (x.den : Int)
  if 0 ≤ t ∧ t < 2 ^ 32 then some t.toNat else none

/-- Rounding of a rational to the nearest integer, ties to the even one. -/
def roundHalfEven (x : ℚ) : Int :=
  if x - ⌊x⌋ < 1 / 2 then ⌊x⌋
  else if 1 / 2 < x - ⌊x⌋ then ⌊x⌋ + 1
  else if ⌊x⌋ % 2 = 0 then ⌊x⌋ else ⌊x⌋ + 1

/-- The binary64 value a real result is rounded to (IEEE 754 round to nearest,
ties to even): a 53-bit significand at the binary exponent of the value, the
exponent not below -1022. Results beyond the largest binary64 value are not
turned into an infinity here; they are far outside the u32 range, where the
conversion that follows is undefined in both cases. -/
def round_binary64 (q : ℚ) : ℚ :=
  if q = 0 then 0
  else
    (if q < 0 then -1 else 1)
      * (roundHalfEven (|q| / (2 : ℚ) ^ (max (Int.log 2 |q|) (-1022) - 52)) : ℚ)
      * (2 : ℚ) ^ (max (Int.log 2 |q|) (-1022) - 52)

/-- The product of two doubles as the C multiplication computes it: the exact
product rounded to binary64. -/
def double_mul (a b : ℚ) : ℚ := round_binary64 (a * b)

/-- The function filein_process_event: the context after the call and whether
the event was handled; none when the conversion of the start range is
undefined. The product 1000 * start_range is a product of doubles. -/
def filein_process_event (ctx : GF_FileInCtx) (com : GF_FilterEvent) :
    Option (GF_FileInCtx × Bool) :=
  match com.on_pid with
  | none => some (ctx, false)
  | some target =>
    if some target ≠ ctx.pid then some (ctx, false)
    else
      match com.type with
      | GF_FEventType.GF_FEVT_PLAY =>
        match double_to_u32 (double_mul 1000 com.start_range) with
        | some v => some ({ ctx with start := v }, true)
        | none => none
      | GF_FEventType.GF_FEVT_STOP => some (ctx, true)
      | GF_FEventType.other _ => some (ctx, false)

/-! ## filein_process -/

/-- The function filein_process: the context after the call, the error code
and the host calls made; none when the call reads through a NULL pointer or
writes outside the block buffer. -/
def filein_process (h : Host) (ctx : GF_FileInCtx) :
    Option (GF_FileInCtx × GF_Err × List Effect) :=
  match ctx.pid with
  | some _ => some (ctx, GF_Err.GF_EOS, [])
  | none =>
    match ctx.block, ctx.file, ctx.src with
    | some block, some file, some src =>
      let data := (file.content.drop file.pos).take ctx.block_size
      let nb_read := data.length
      if nb_read < block.length then
        let block1 := (data ++ block.drop nb_read).set nb_read 0
        let file1 : FILE := { file with pos := file.pos + nb_read }
        let d := filein_declare_pid h src (some src) none (some block1) nb_read
        let ctx1 : GF_FileInCtx :=
          { ctx with block := some block1, file := some file1, src := some d.url, pid := d.pid }
        let t1 : List Effect := Effect.fread ctx.block_size :: d.trace
        match d.pid with
        | none => some (ctx1, GF_Err.GF_SERVICE_ERROR, t1)
        | some p =>
          let t2 := t1 ++ [Effect.pck_new_shared p 0]
          if h.gf_filter_pck_new_shared then
            let pck0 : GF_FilterPacket :=
              { pid := p, data := block1, data_size := 0, shared := true, cts := none,
                framing := none, sap := none, byte_offset := none }
            let pck1 := { pck0 with cts := some ctx.start }
            let pck2 := { pck1 with framing := some (true, true) }
            let pck3 := { pck2 with sap := some 1 }
            let pck4 := { pck3 with byte_offset := some 0 }
            some (ctx1, GF_Err.GF_EOS, t2 ++ [Effect.pck_send pck4, Effect.pid_set_eos p])
          else some (ctx1, GF_Err.GF_OK, t2)
      else none
    | _, _, _ => none

/-- Packets sent in a list of effects, in order. -/
def sentPackets : List Effect → List GF_FilterPacket
  | [] => []
  | Effect.pck_send pck :: rest => pck :: sentPackets rest
  | _ :: rest => sentPackets rest

/-- A run of process calls, one host answer per call: the final context, the
codes returned and all host calls made. -/
def run_process : List Host → GF_FileInCtx → Option (GF_FileInCtx × List GF_Err × List Effect)
  | [], ctx => some (ctx, [], [])
  | h :: hs, ctx =>
    match filein_process h ctx with
    | none => none
    | some (ctx1, e, t) =>
      match run_process hs ctx1 with
      | none => none
      | some (ctx2, es, ts) => some (ctx2, e :: es, t ++ ts)

/-! ## Sequences of callback calls -/

/-- One call made by the session on a context, with what the host answers
during it. -/
inductive Call
  | init (h : Host)
  | process (h : Host)
  | event (com : GF_FilterEvent)
  | fini

/-- Whether a call is a filein_process call. -/
def Call.isProcess : Call → Bool
  | Call.process _ => true
  | _ => false

/-- One call on a context: the context after it and the host calls made; none
when the callback is undefined on that context. -/
def step_call (c : Call) (ctx : GF_FileInCtx) : Option (GF_FileInCtx × List Effect) :=
  match c with
  | Call.init h =>
    let r := filein_initialize h ctx
    some (r.1, r.2.2)
  | Call.process h => (filein_process h ctx).map (fun r => (r.1, r.2.2))
  | Call.event com => (filein_process_event ctx com).map (fun r => (r.1, []))
  | Call.fini => some (filein_finalize ctx)

/-- A sequence of calls, in order: the final context and all host calls made. -/
def run_calls : List Call → GF_FileInCtx → Option (GF_FileInCtx × List Effect)
  | [], ctx => some (ctx, [])
  | c :: cs, ctx =>
    match step_call c ctx with
    | none => none
    | some (ctx1, t) =>
      match run_calls cs ctx1 with
      | none => none
      | some (ctx2, ts) => some (ctx2, t ++ ts)

/-- A context that filein_process can read on and that has no PID yet: file,
locator and block are set and the block is longer than block_size. -/
def awaitsPort (ctx : GF_FileInCtx) : Bool :=
  ctx.pid.isNone && ctx.file.isSome && ctx.src.isSome &&
    (match ctx.block with
     | some b => decide (ctx.block_size < b.length)
     | none => false)

/-- Calls that cannot create the PID: events, and process calls during which
the host returns no PID. -/
def Call.leavesNoPort : Call → Bool
  | Call.event _ => true
  | Call.process h => h.gf_filter_pid_new.isNone
  | _ => false

/-! ## The marker table of the specification -/

/-- One row of the marker table: the row matches when, for one of its
alternatives, every marker of the alternative occurs in the prefix. -/
structure MarkerRow where
  alts : List (List (List Nat))
  mime : List Nat
  deriving DecidableEq, Repr

/-- Whether a row matches a prefix (markers are substrings, bytes compared as they are). -/
def rowMatches (p : List Nat) (r : MarkerRow) : Bool :=
  r.alts.any (fun alt => alt.all (fun m => decide (m <:+: p)))

/-- First match wins: the MIME type of the first matching row, or none. -/
def tableLookup (rows : List MarkerRow) (p : List Nat) : Option (List Nat) :=
  (rows.find? (rowMatches p)).map (fun r => r.mime)

/-- The rows below the first one, as the specification lists them. -/
def marker_rows_tail : List MarkerRow :=
  [ { alts := [[bytes "InitialObjectDescriptor"], [bytes "EXTERNPROTO", bytes "gpac:"]],
      mime := bytes "application/x-bt" },
    { alts := [[bytes "#VRML V2.0 utf8"]], mime := bytes "model/vrml" },
    { alts := [[bytes "#X3D V3.0"]], mime := bytes "model/x3d+vrml" },
    { alts := [[bytes "<X3D"], [bytes "/x3d-3.0.dtd"]], mime := bytes "model/x3d+xml" },
    { alts := [[bytes "<saf"], [bytes "mpeg4:SAF:2005"], [bytes "mpeg4:LASeR:2005"]],
      mime := bytes "application/x-LASeR+xml" },
    { alts := [[bytes "<svg"], [bytes "w3.org/2000/svg"]], mime := bytes "application/widget" } ]

/-- The ordered marker table as the specification writes it. -/
def spec_marker_table : List MarkerRow :=
  { alts := [[bytes "<XMT-A>"], [bytes ":mpeg4:xmta:"]], mime := bytes "application/x-xmt" }
    :: marker_rows_tail

/-- The same table with the first marker as the source has it, without the
closing bracket. -/
def source_marker_table : List MarkerRow :=
  { alts := [[bytes "<XMT-A"], [bytes ":mpeg4:xmta:"]], mime := bytes "application/x-xmt" }
    :: marker_rows_tail

/-! ## The locator normalizer of the specification -/

/-- Whether a string starts with a prefix, letter case ignored. -/
def hasPrefixCI (s pre : List Nat) : Bool :=
  (s.take pre.length).map tolower == pre.map tolower

/-- Strip a recognized local-file scheme prefix, file:// else file:, if present. -/
def spec_strip_scheme (loc : List Nat) : List Nat :=
  if hasPrefixCI loc (bytes "file://") then loc.drop 7
  else if hasPrefixCI loc (bytes "file:") then loc.drop 5
  else loc

/-- Truncate at the first occurrence of either the sharp or the question mark. -/
def spec_truncate (s : List Nat) : List Nat :=
  s.takeWhile (fun b => b != 35 && b != 63)

/-- The path of a locator: scheme prefix removed, then truncated. -/
def spec_local_path (loc : List Nat) : List Nat :=
  spec_truncate (spec_strip_scheme loc)

/-- All the markers of a list of rows, in table order. -/
def tableMarkers (rows : List MarkerRow) : List (List Nat) :=
  rows.flatMap (fun r => r.alts.flatten)

/-- The scheme strip read letter for letter: file:// (else file:) is removed
only when the locator starts with these very bytes. -/
def spec_strip_scheme_literal (loc : List Nat) : List Nat :=
  if (bytes "file://").isPrefixOf loc then loc.drop 7
  else if (bytes "file:").isPrefixOf loc then loc.drop 5
  else loc

/-! ## Extensions -/

theorem strrchrFrom_skip (c : Nat) (hc : c ≠ 0) :
    ∀ (l : List Nat) (i : Nat) (last : Option Nat), 0 ∉ l → c ∉ l →
      strrchrFrom l c i last = last := by
  intro l
  induction l with
  | nil => intro i last _ _; simp [strrchrFrom, hc]
  | cons b bs ih =>
    intro i last h0 hcl
    have hb0 : b ≠ 0 := fun h => h0 (by simp [h])
    have hbc : b ≠ c := fun h => hcl (by simp [h])
    have h0' : 0 ∉ bs := fun h => h0 (List.mem_cons_of_mem _ h)
    have hc' : c ∉ bs := fun h => hcl (List.mem_cons_of_mem _ h)
    simp [strrchrFrom, hb0, hbc, ih (i + 1) last h0' hc']

theorem strrchrFrom_stop (c : Nat) (hc : c ≠ 0) (r : List Nat) :
    ∀ (l : List Nat) (i : Nat) (last : Option Nat), 0 ∉ l → c ∉ l →
      strrchrFrom (l ++ 0 :: r) c i last = last := by
  intro l
  induction l with
  | nil => intro i last _ _; simp [strrchrFrom, hc]
  | cons b bs ih =>
    intro i last h0 hcl
    have hb0 : b ≠ 0 := fun h => h0 (by simp [h])
    have hbc : b ≠ c := fun h => hcl (by simp [h])
    have h0' : 0 ∉ bs := fun h => h0 (List.mem_cons_of_mem _ h)
    have hc' : c ∉ bs := fun h => hcl (List.mem_cons_of_mem _ h)
    simp [strrchrFrom, hb0, hbc, ih (i + 1) last h0' hc']

theorem strrchrFrom_append (c : Nat) (rest : List Nat) :
    ∀ (l : List Nat) (i : Nat) (last : Option Nat), 0 ∉ l →
      ∃ last1, strrchrFrom (l ++ rest) c i last = strrchrFrom rest c (i + l.length) last1 := by
  intro l
  induction l with
  | nil => intro i last _; exact ⟨last, by simp⟩
  | cons b bs ih =>
    intro i last h0
    have hb0 : b ≠ 0 := fun h => h0 (by simp [h])
    have h0' : 0 ∉ bs := fun h => h0 (List.mem_cons_of_mem _ h)
    obtain ⟨l1, hl1⟩ := ih (i + 1) (if b = c then some i else last) h0'
    refine ⟨l1, ?_⟩
    have e : i + 1 + bs.length = i + (bs.length + 1) := by omega
    rw [e] at hl1
    simpa [strrchrFrom, hb0] using hl1

/-- The last occurrence of a byte: found at the split point. -/
theorem strrchr_split (c : Nat) (hc : c ≠ 0) (l r : List Nat) (hl : 0 ∉ l) (hr : 0 ∉ r)
    (hcr : c ∉ r) : strrchr (l ++ c :: r) c = some l.length := by
  unfold strrchr
  obtain ⟨l1, hl1⟩ := strrchrFrom_append c (c :: r) l 0 none hl
  rw [hl1]
  simp [strrchrFrom, hc, strrchrFrom_skip c hc r _ _ hr hcr]

theorem strrchr_split_stop (c : Nat) (hc : c ≠ 0) (l m r : List Nat) (hl : 0 ∉ l) (hm : 0 ∉ m)
    (hcm : c ∉ m) : strrchr (l ++ c :: (m ++ 0 :: r)) c = some l.length := by
  unfold strrchr
  obtain ⟨l1, hl1⟩ := strrchrFrom_append c (c :: (m ++ 0 :: r)) l 0 none hl
  rw [hl1]
  simp [strrchrFrom, hc, strrchrFrom_stop c hc r m _ _ hm hcm]

theorem set_length_append (l : List Nat) (x v : Nat) (r : List Nat) :
    (l ++ x :: r).set l.length v = l ++ v :: r := by
  induction l with
  | nil => rfl
  | cons b bs ih => simp [List.set, ih]

theorem cstr_of_no_nul (l : List Nat) (h : 0 ∉ l) : cstr l 0 = l := by
  unfold cstr
  simp only [List.drop_zero]
  rw [List.takeWhile_eq_self_iff]
  intro b hb
  have : b ≠ 0 := fun e => h (e ▸ hb)
  simpa using this

theorem cstr_append_left (l r : List Nat) : cstr (l ++ r) l.length = cstr r 0 := by
  simp [cstr]

theorem bytes_dot_gz : bytes ".gz" = [46, 103, 122] := by decide

theorem tolower_ne_zero (x : Nat) (h : x ≠ 0) : tolower x ≠ 0 := by
  unfold tolower
  split <;> omega

theorem stricmp_gz (gz : List Nat) (h0 : 0 ∉ gz) (h : stricmp (46 :: gz) (bytes ".gz") = 0) :
    46 ∉ gz := by
  rw [bytes_dot_gz] at h
  rcases gz with _ | ⟨g, _ | ⟨z, _ | ⟨x, t⟩⟩⟩
  · simp
  · simp [stricmp, tolower] at h
    split_ifs at h <;> omega
  · simp only [stricmp] at h
    by_cases hg : tolower g = tolower 103
    · by_cases hz : tolower z = tolower 122
      · intro hm
        simp only [List.mem_cons, List.mem_singleton, List.not_mem_nil, or_false] at hm
        rcases hm with hm | hm
        · rw [← hm] at hg; simp [tolower] at hg
        · rw [← hm] at hz; simp [tolower] at hz
      · simp [hg, hz] at h
        simp [tolower] at h hz
        split_ifs at h hz <;> omega
    · simp [hg] at h
      simp [tolower] at h hg
      split_ifs at h hg <;> omega
  · exfalso
    have hx : x ≠ 0 := fun e => h0 (by simp [e])
    have := tolower_ne_zero x hx
    simp only [stricmp] at h
    split_ifs at h
    · exact this (by exact_mod_cast h)
    all_goals (simp [tolower] at *; try split_ifs at * <;> omega)

/-! ## The extension scan of filein_declare_pid -/

theorem propOf_file_ext_declare (h : Host) (url : List Nat) (lf mt pd : Option (List Nat))
    (n : Nat) :
    propOf PidProp.GF_PROP_PID_FILE_EXT (filein_declare_pid h url lf mt pd n).trace
      = (filein_ext_scan url).2.map (fun e => cstr (filein_ext_scan url).1 e) := by
  unfold filein_declare_pid
  simp only
  generalize (match mt, pd with
    | none, some pd => filein_sniff (cstr pd 0)
    | m, _ => m) = m
  cases lf <;> cases hs : (filein_ext_scan url).2 <;> cases m <;> simp [propOf, hs]

theorem propOf_mime_declare (h : Host) (url : List Nat) (lf : Option (List Nat))
    (pd : List Nat) (n : Nat) :
    propOf PidProp.GF_PROP_PID_MIME (filein_declare_pid h url lf none (some pd) n).trace
      = filein_sniff (cstr pd 0) := by
  unfold filein_declare_pid
  cases lf <;> cases hs : (filein_ext_scan url).2 <;> cases hm : filein_sniff (cstr pd 0) <;>
    simp [propOf, hs, hm]

theorem filein_ext_scan_gz (pre inner gz : List Nat) (hpre : 0 ∉ pre) (hin : 0 ∉ inner)
    (hgz0 : 0 ∉ gz) (hdot : 46 ∉ inner) (hgz : stricmp (46 :: gz) (bytes ".gz") = 0) :
    filein_ext_scan (pre ++ 46 :: (inner ++ 46 :: gz))
      = (pre ++ 46 :: (inner ++ 46 :: gz), some (pre.length + 1)) := by
  have hdgz : 46 ∉ gz := stricmp_gz gz hgz0 hgz
  have hl0 : 0 ∉ pre ++ 46 :: inner := by
    simp only [List.mem_append, List.mem_cons, not_or]
    exact ⟨hpre, by decide, hin⟩
  have e1 : pre ++ 46 :: (inner ++ 46 :: gz) = (pre ++ 46 :: inner) ++ 46 :: gz := by simp
  have h1 : strrchr (pre ++ 46 :: (inner ++ 46 :: gz)) 46 = some (pre ++ 46 :: inner).length := by
    rw [e1]; exact strrchr_split 46 (by decide) _ _ hl0 hgz0 hdgz
  have h2 : cstr (pre ++ 46 :: (inner ++ 46 :: gz)) (pre ++ 46 :: inner).length = 46 :: gz := by
    rw [e1, cstr_append_left]
    exact cstr_of_no_nul _ (by simp only [List.mem_cons, not_or]; exact ⟨by decide, hgz0⟩)
  have h3 : (pre ++ 46 :: (inner ++ 46 :: gz)).set (pre ++ 46 :: inner).length 0
      = pre ++ 46 :: (inner ++ 0 :: gz) := by
    rw [e1, set_length_append]; simp
  have h4 : strrchr (pre ++ 46 :: (inner ++ 0 :: gz)) 46 = some pre.length :=
    strrchr_split_stop 46 (by decide) pre inner gz hpre hin hdot
  have h5 : (pre ++ 46 :: (inner ++ 0 :: gz)).set (pre ++ 46 :: inner).length 46
      = pre ++ 46 :: (inner ++ 46 :: gz) := by
    have : pre ++ 46 :: (inner ++ 0 :: gz) = (pre ++ 46 :: inner) ++ 0 :: gz := by simp
    rw [this, set_length_append]; simp
  unfold filein_ext_scan
  simp only [h1, h2, hgz, h3, h4, h5, if_true, Option.map_some']

/-- C1, as the code has it: for a locator pre.inner.gz (no dot in inner, the
last suffix equal to .gz ignoring case) the file extension property set by
filein_declare_pid is the text after the second-to-last dot up to the end of
the locator, that is the inner suffix followed by the .gz suffix. -/
theorem declare_pid_gz_ext (h : Host) (pre inner gz : List Nat) (lf mt pd : Option (List Nat))
    (n : Nat) (hpre : 0 ∉ pre) (hin : 0 ∉ inner) (hgz0 : 0 ∉ gz) (hdot : 46 ∉ inner)
    (hgz : stricmp (46 :: gz) (bytes ".gz") = 0) :
    propOf PidProp.GF_PROP_PID_FILE_EXT
        (filein_declare_pid h (pre ++ 46 :: (inner ++ 46 :: gz)) lf mt pd n).trace
      = some (inner ++ 46 :: gz) := by
  rw [propOf_file_ext_declare, filein_ext_scan_gz pre inner gz hpre hin hgz0 hdot hgz]
  have e : pre ++ 46 :: (inner ++ 46 :: gz) = (pre ++ [46]) ++ (inner ++ 46 :: gz) := by simp
  have hl : pre.length + 1 = (pre ++ [46]).length := by simp
  simp only [Option.map_some']
  rw [e, hl, cstr_append_left]
  congr 1
  apply cstr_of_no_nul
  have hdgz : 46 ∉ gz := stricmp_gz gz hgz0 hgz
  simp only [List.mem_append, List.mem_cons, not_or]
  exact ⟨hin, by decide, hgz0⟩

theorem declare_pid_gz_ext_witness :
    propOf PidProp.GF_PROP_PID_FILE_EXT
        (filein_declare_pid ⟨fun _ => none, fun _ => false, some 1, true⟩
          (bytes "scene" ++ 46 :: (bytes "x3d" ++ 46 :: bytes "GZ")) none none none 0).trace
      = some (bytes "x3d" ++ 46 :: bytes "GZ") :=
  declare_pid_gz_ext _ (bytes "scene") (bytes "x3d") (bytes "GZ") none none none 0
    (by decide) (by decide) (by decide) (by decide) (by decide)

/-- C1 as stated fails: for archive.xml.gz the extension property is xml.gz, not xml. -/
theorem declare_pid_gz_ext_counterexample :
    propOf PidProp.GF_PROP_PID_FILE_EXT
        (filein_declare_pid ⟨fun _ => none, fun _ => false, some 1, true⟩
          (bytes "archive.xml.gz") (some (bytes "archive.xml.gz")) none none 0).trace
      = some (bytes "xml.gz")
    ∧ propOf PidProp.GF_PROP_PID_FILE_EXT
        (filein_declare_pid ⟨fun _ => none, fun _ => false, some 1, true⟩
          (bytes "archive.xml.gz") (some (bytes "archive.xml.gz")) none none 0).trace
      ≠ some (bytes "xml") := by
  decide

/-! ## The content sniffer of filein_declare_pid -/

theorem startsWith_iff (n : List Nat) : ∀ s : List Nat, startsWith s n = true ↔ n <+: s := by
  induction n with
  | nil => intro s; cases s <;> simp [startsWith]
  | cons b bs ih =>
    intro s
    cases s with
    | nil => simp [startsWith]
    | cons a as =>
      simp only [startsWith, Bool.and_eq_true, beq_iff_eq, ih, List.cons_prefix_cons]
      constructor
      · rintro ⟨h1, h2⟩; exact ⟨h1.symm, h2⟩
      · rintro ⟨h1, h2⟩; exact ⟨h1.symm, h2⟩

/-- The call strstr finds the needle exactly when it occurs as a substring. -/
theorem strstr_isSome (n : List Nat) : ∀ s : List Nat, (strstr s n).isSome = decide (n <:+: s) := by
  intro s
  induction s with
  | nil =>
    by_cases h : startsWith [] n = true
    · have := (startsWith_iff n []).1 h
      simp [strstr, h, this.isInfix]
    · have h2 : ¬ n <+: [] := fun e => h ((startsWith_iff n []).2 e)
      have h3 : ¬ n <:+: [] := by
        intro e; apply h2; rw [List.infix_nil] at e; rw [e]
      simp [strstr, h, h3]
  | cons a as ih =>
    by_cases h : startsWith (a :: as) n = true
    · have := (startsWith_iff n _).1 h
      simp [strstr, h, this.isInfix]
    · have h2 : ¬ n <+: a :: as := fun e => h ((startsWith_iff n _).2 e)
      simp only [strstr, h, Bool.false_eq_true, if_false, Option.isSome_map', ih,
        List.infix_cons_iff, h2, false_or]

theorem filein_sniff_eq_table (p : List Nat) :
    filein_sniff p = tableLookup source_marker_table p := by
  unfold filein_sniff
  simp only [strstr_isSome, tableLookup, source_marker_table, marker_rows_tail, rowMatches,
    List.find?, List.any_cons, List.any_nil, List.all_cons, List.all_nil, Bool.and_true,
    Bool.or_false, Bool.or_assoc]
  generalize (decide (bytes "<XMT-A" <:+: p) || decide (bytes ":mpeg4:xmta:" <:+: p)) = c1
  generalize (decide (bytes "InitialObjectDescriptor" <:+: p)
    || decide (bytes "EXTERNPROTO" <:+: p) && decide (bytes "gpac:" <:+: p)) = c2
  generalize decide (bytes "#VRML V2.0 utf8" <:+: p) = c3
  generalize decide (bytes "#X3D V3.0" <:+: p) = c4
  generalize (decide (bytes "<X3D" <:+: p) || decide (bytes "/x3d-3.0.dtd" <:+: p)) = c5
  generalize (decide (bytes "<saf" <:+: p) || (decide (bytes "mpeg4:SAF:2005" <:+: p)
    || decide (bytes "mpeg4:LASeR:2005" <:+: p))) = c6
  generalize (decide (bytes "<svg" <:+: p) || decide (bytes "w3.org/2000/svg" <:+: p)) = c7
  cases c1 <;> cases c2 <;> cases c3 <;> cases c4 <;> cases c5 <;> cases c6 <;> cases c7 <;> rfl

/-- C2, with the first marker as the source has it: with no prior MIME type
and a probe buffer, the MIME property set by filein_declare_pid is the type of
the first row of the marker table that matches the text held in the probe
buffer up to its first NUL, and no MIME property is set when no row matches;
the table is the one of the specification with the marker <XMT-A (no closing
bracket) in its first row. -/
theorem declare_pid_mime_eq_table (h : Host) (url : List Nat) (lf : Option (List Nat))
    (pd : List Nat) (n : Nat) :
    propOf PidProp.GF_PROP_PID_MIME (filein_declare_pid h url lf none (some pd) n).trace
      = tableLookup source_marker_table (cstr pd 0) := by
  rw [propOf_mime_declare, filein_sniff_eq_table]

/-- C2 as stated fails: on the prefix <XMT-A xmlns> the source sets
application/x-xmt while the table with the marker <XMT-A> yields no type. -/
theorem declare_pid_mime_counterexample :
    propOf PidProp.GF_PROP_PID_MIME
        (filein_declare_pid ⟨fun _ => none, fun _ => false, some 1, true⟩ (bytes "a.xmt")
          (some (bytes "a.xmt")) none (some (bytes "<XMT-A xmlns>")) 13).trace
      = some (bytes "application/x-xmt")
    ∧ tableLookup spec_marker_table (cstr (bytes "<XMT-A xmlns>") 0) = none := by
  decide

/-! ## In-place truncation and its undoing -/

theorem strchr_getElem (c : Nat) (hc : c ≠ 0) :
    ∀ (s : List Nat) (i : Nat), strchr s c = some i → s[i]? = some c := by
  intro s
  induction s with
  | nil => intro i h; simp [strchr, hc] at h
  | cons b bs ih =>
    intro i h
    unfold strchr at h
    by_cases hbc : b = c
    · simp [hbc] at h; subst h; simp [hbc]
    · by_cases hb0 : b = 0
      · subst hb0
        simp [Ne.symm hc] at h
      · simp only [hbc, hb0, if_false, Option.map_eq_some'] at h
        obtain ⟨j, hj, rfl⟩ := h
        simpa using ih j hj

/-- Writing NUL over the first sharp and then over the first question mark of
what is left, and writing both bytes back, gives the buffer back. -/
theorem poke_restore (s0 : List Nat) :
    poke (poke (poke (poke s0 (strchr s0 35) 0) (strchr (poke s0 (strchr s0 35) 0) 63) 0)
      (strchr s0 35) 35) (strchr (poke s0 (strchr s0 35) 0) 63) 63 = s0 := by
  cases hf : strchr s0 35 with
  | none =>
    simp only [poke]
    cases hg : strchr s0 63 with
    | none => rfl
    | some j =>
      have hj := strchr_getElem 63 (by decide) s0 j hg
      obtain ⟨hjl, -⟩ := List.getElem?_eq_some.1 hj
      simp only [poke]
      apply List.ext_getElem?
      intro k
      simp only [List.getElem?_set, List.length_set]
      split_ifs <;> simp_all
  | some i =>
    have hi := strchr_getElem 35 (by decide) s0 i hf
    obtain ⟨hil, -⟩ := List.getElem?_eq_some.1 hi
    simp only [poke]
    cases hg : strchr (s0.set i 0) 63 with
    | none =>
      simp only [poke]
      apply List.ext_getElem?
      intro k
      simp only [List.getElem?_set, List.length_set]
      split_ifs <;> simp_all
    | some j =>
      have hj := strchr_getElem 63 (by decide) _ j hg
      obtain ⟨hjl, -⟩ := List.getElem?_eq_some.1 hj
      simp only [List.length_set] at hjl
      simp only [poke]
      apply List.ext_getElem?
      intro k
      simp only [List.getElem?_set, List.length_set] at hj ⊢
      split_ifs at hj ⊢ <;> simp_all

theorem strrchrFrom_getElem (c : Nat) (hc : c ≠ 0) :
    ∀ (l : List Nat) (i : Nat) (last : Option Nat) (k : Nat), strrchrFrom l c i last = some k →
      last = some k ∨ ∃ j, k = i + j ∧ l[j]? = some c := by
  intro l
  induction l with
  | nil => intro i last k h; left; simpa [strrchrFrom, hc] using h
  | cons b bs ih =>
    intro i last k h
    unfold strrchrFrom at h
    by_cases hb0 : b = 0
    · left; simpa [hb0, hc] using h
    · simp only [hb0, if_false] at h
      rcases ih _ _ _ h with h1 | ⟨j, hj, hget⟩
      · by_cases hbc : b = c
        · right
          refine ⟨0, ?_, by simp [hbc]⟩
          simp only [hbc, if_true, Option.some.injEq] at h1
          omega
        · left; simpa [hbc] using h1
      · right
        exact ⟨j + 1, by omega, by simpa using hget⟩

theorem strrchr_getElem (c : Nat) (hc : c ≠ 0) (s : List Nat) (k : Nat)
    (h : strrchr s c = some k) : s[k]? = some c := by
  rcases strrchrFrom_getElem c hc s 0 none k h with h1 | ⟨j, hj, hget⟩
  · cases h1
  · have : k = j := by omega
    rw [this]; exact hget

theorem set_set_restore (s : List Nat) (k v c : Nat) (h : s[k]? = some c) :
    (s.set k v).set k c = s := by
  apply List.ext_getElem?
  intro m
  obtain ⟨hk, -⟩ := List.getElem?_eq_some.1 h
  simp only [List.getElem?_set, List.length_set]
  split_ifs <;> simp_all

/-- The extension scan leaves the url buffer as it found it. -/
theorem filein_ext_scan_restores (url : List Nat) : (filein_ext_scan url).1 = url := by
  unfold filein_ext_scan
  cases h : strrchr url 46 with
  | none => rfl
  | some e =>
    simp only
    split_ifs
    · exact set_set_restore url e 0 46 (strrchr_getElem 46 (by decide) url e h)
    · rfl

/-- C4: the locator buffer is the same before and after filein_initialize
(whatever it returns: success, missing locator, unsupported scheme, open
failure), before and after filein_probe_url, and before and after
filein_declare_pid; every byte overwritten with a terminator is written back. -/
theorem locator_unchanged (h : Host) (ctx : GF_FileInCtx) (url : List Nat)
    (lf mt pd : Option (List Nat)) (n : Nat) :
    ( filein_initialize h ctx).1.src = ctx.src
    ∧ (filein_probe_url h url mt).1 = url
    ∧ (filein_declare_pid h url lf mt pd n).url = url := by
  refine ⟨?_, ?_, ?_⟩
  · unfold filein_initialize
    cases hs : ctx.src with
    | none => simp [hs]
    | some s0 =>
      simp only
      split_ifs
      · simp [hs]
      · cases h.gf_fopen _ <;> simp [poke_restore]
  · simp [filein_probe_url, poke_restore]
  · simp [filein_declare_pid, filein_ext_scan_restores]

/-! ## The callbacks on an initialized context -/

/-- Shape of the context after a successful filein_initialize. -/
theorem filein_initialize_ok (h : Host) (ctx0 ctx : GF_FileInCtx) (tr : List Effect)
    (hi : filein_initialize h ctx0 = (ctx, GF_Err.GF_OK, tr)) :
    ∃ s content, ctx0.src = some s ∧
      ctx = { ctx0 with src := some s, file := some { content := content, pos := 0 },
                        file_size := content.length % 2 ^ 64,
                        block := some (List.replicate ((ctx0.block_size + 1) % 2 ^ 32) 0) } := by
  unfold filein_initialize at hi
  cases hs : ctx0.src with
  | none => simp [hs] at hi
  | some s0 =>
    simp only [hs] at hi
    split_ifs at hi
    · simp at hi
    · cases ho : h.gf_fopen (cstr (poke (poke s0 (strchr s0 35) 0)
          (strchr (poke s0 (strchr s0 35) 0) 63) 0)
          (skip_file_scheme (cstr (poke (poke s0 (strchr s0 35) 0)
            (strchr (poke s0 (strchr s0 35) 0) 63) 0) 0))) with
      | none => simp [ho] at hi
      | some content =>
        simp only [ho, poke_restore, Prod.mk.injEq] at hi
        exact ⟨s0, content, rfl, hi.1.symm⟩

/-- The first filein_process call when the host delivers the PID and the
packet and the read fits the block buffer. -/
theorem filein_process_first (h : Host) (ctx : GF_FileInCtx) (block src : List Nat) (file : FILE)
    (p : Nat) (hpid : ctx.pid = none) (hb : ctx.block = some block) (hf : ctx.file = some file)
    (hs : ctx.src = some src)
    (hlen : ((file.content.drop file.pos).take ctx.block_size).length < block.length)
    (hp : h.gf_filter_pid_new = some p) (hk : h.gf_filter_pck_new_shared = true) :
    filein_process h ctx =
      some ({ ctx with
                block := some ((((file.content.drop file.pos).take ctx.block_size)
                  ++ block.drop ((file.content.drop file.pos).take ctx.block_size).length).set
                    ((file.content.drop file.pos).take ctx.block_size).length 0),
                file := some { file with
                  pos := file.pos + ((file.content.drop file.pos).take ctx.block_size).length },
                src := some src, pid := some p },
            GF_Err.GF_EOS,
            (Effect.fread ctx.block_size ::
              (filein_declare_pid h src (some src) none
                (some ((((file.content.drop file.pos).take ctx.block_size)
                  ++ block.drop ((file.content.drop file.pos).take ctx.block_size).length).set
                    ((file.content.drop file.pos).take ctx.block_size).length 0))
                ((file.content.drop file.pos).take ctx.block_size).length).trace
              ++ [Effect.pck_new_shared p 0])
            ++ [Effect.pck_send
                  { pid := p,
                    data := (((file.content.drop file.pos).take ctx.block_size)
                      ++ block.drop ((file.content.drop file.pos).take ctx.block_size).length).set
                        ((file.content.drop file.pos).take ctx.block_size).length 0,
                    data_size := 0, shared := true, cts := some ctx.start,
                    framing := some (true, true), sap := some 1, byte_offset := some 0 },
                Effect.pid_set_eos p]) := by
  have hd : ∀ b n, (filein_declare_pid h src (some src) none b n).pid = some p := by
    intro b n; simp [filein_declare_pid, hp]
  have hu : ∀ b n, (filein_declare_pid h src (some src) none b n).url = src := by
    intro b n; simp [filein_declare_pid, filein_ext_scan_restores]
  unfold filein_process
  simp only [hpid, hb, hf, hs, hlen, if_true, hd, hu, hk]

/-- Once the PID exists, filein_process returns end of stream and does nothing else. -/
theorem filein_process_again (h : Host) (ctx : GF_FileInCtx) (p : Nat) (hpid : ctx.pid = some p) :
    filein_process h ctx = some (ctx, GF_Err.GF_EOS, []) := by
  unfold filein_process
  simp [hpid]

theorem run_process_again (ctx : GF_FileInCtx) (p : Nat) (hpid : ctx.pid = some p) :
    ∀ hs : List Host, run_process hs ctx
      = some (ctx, List.replicate hs.length GF_Err.GF_EOS, []) := by
  intro hs
  induction hs with
  | nil => rfl
  | cons h hs ih =>
    simp [run_process, filein_process_again h ctx p hpid, ih, List.replicate_succ]

theorem sentPackets_append (a b : List Effect) :
    sentPackets (a ++ b) = sentPackets a ++ sentPackets b := by
  induction a with
  | nil => rfl
  | cons e es ih => cases e <;> simp [sentPackets, ih]

theorem sentPackets_declare (h : Host) (url : List Nat) (lf mt pd : Option (List Nat)) (n : Nat) :
    sentPackets (filein_declare_pid h url lf mt pd n).trace = [] := by
  unfold filein_declare_pid
  simp only
  generalize (match mt, pd with
    | none, some pd => filein_sniff (cstr pd 0)
    | m, _ => m) = m
  cases lf <;> cases (filein_ext_scan url).2 <;> cases m <;> simp [sentPackets]

theorem sentPackets_pre (bs p : Nat) (t : List Effect) (ht : sentPackets t = []) :
    sentPackets (Effect.fread bs :: t ++ [Effect.pck_new_shared p 0]) = [] := by
  rw [List.cons_append]
  show sentPackets (t ++ [Effect.pck_new_shared p 0]) = []
  rw [sentPackets_append, ht]
  rfl

theorem run_process_first (h : Host) (hs : List Host) (ctx ctx1 : GF_FileInCtx)
    (t : List Effect) (p : Nat) (hfirst : filein_process h ctx = some (ctx1, GF_Err.GF_EOS, t))
    (hpid : ctx1.pid = some p) :
    run_process (h :: hs) ctx
      = some (ctx1, List.replicate (hs.length + 1) GF_Err.GF_EOS, t ++ []) := by
  simp only [run_process, hfirst, run_process_again ctx1 p hpid hs]
  rfl

/-- The first filein_process call on a freshly initialized context, when the
host delivers the PID and the packet: the packet sent, spelled out. -/
theorem filein_process_initialized (h0 h : Host) (src : Option (List Nat)) (bs : Nat)
    (ctx : GF_FileInCtx) (tr : List Effect) (p : Nat) (hbs : bs + 1 < 2 ^ 32)
    (hinit : filein_initialize h0 (freshCtx src bs) = (ctx, GF_Err.GF_OK, tr))
    (hp : h.gf_filter_pid_new = some p) (hk : h.gf_filter_pck_new_shared = true) :
    ∃ s content ctx1 t pck,
      src = some s ∧ ctx.file = some { content := content, pos := 0 } ∧ ctx.start = 0
      ∧ ctx.pid = none ∧ ctx.block_size = bs
      ∧ filein_process h ctx = some (ctx1, GF_Err.GF_EOS, t) ∧ sentPackets t = [pck]
      ∧ pck = { pid := p,
                data := (content.take bs
                  ++ (List.replicate (bs + 1) 0).drop (content.take bs).length).set
                    (content.take bs).length 0,
                data_size := 0, shared := true, cts := some 0, framing := some (true, true),
                sap := some 1, byte_offset := some 0 }
      ∧ ctx1.block = some pck.data := by
  obtain ⟨s, content, hsrc, hctx⟩ := filein_initialize_ok h0 _ ctx tr hinit
  have hmod : (bs + 1) % 2 ^ 32 = bs + 1 := Nat.mod_eq_of_lt hbs
  simp only [freshCtx, hmod] at hctx hsrc
  subst hctx
  have hlen : ((content.drop 0).take bs).length < (List.replicate (bs + 1) 0).length := by
    simp only [List.length_take, List.length_replicate]
    omega
  have hfirst := filein_process_first h
    { src := some s, block_size := bs, pid := none,
      file := some { content := content, pos := 0 }, file_size := content.length % 2 ^ 64,
      block := some (List.replicate (bs + 1) 0), start := 0 }
    (List.replicate (bs + 1) 0) s { content := content, pos := 0 } p rfl rfl rfl rfl hlen hp hk
  simp only [List.drop_zero] at hfirst
  refine ⟨s, content, _, _, _, hsrc, rfl, rfl, rfl, rfl, hfirst, ?_, rfl, rfl⟩
  rw [sentPackets_append, sentPackets_pre _ _ _ (sentPackets_declare _ _ _ _ _ _)]
  rfl


/-! ## Single emission -/

/-- C3, under the conditions the code needs: for a fresh context on which
filein_initialize succeeded with block_size + 1 below 2^32, when the host
delivers the PID and the packet on the first filein_process call, that call
creates the PID, sends exactly one packet, marks the PID end of stream right
after the send and returns end of stream; every later call returns end of
stream, makes no host call and leaves the context as it is; so any run of
process calls sends exactly that one packet. -/
theorem process_emits_once (h0 h : Host) (src : Option (List Nat)) (bs : Nat)
    (ctx : GF_FileInCtx) (tr : List Effect) (p : Nat) (hs : List Host)
    (hbs : bs + 1 < 2 ^ 32)
    (hinit : filein_initialize h0 (freshCtx src bs) = (ctx, GF_Err.GF_OK, tr))
    (hp : h.gf_filter_pid_new = some p) (hk : h.gf_filter_pck_new_shared = true) :
    ∃ ctx1 pre pck,
      filein_process h ctx
        = some (ctx1, GF_Err.GF_EOS, pre ++ [Effect.pck_send pck, Effect.pid_set_eos p])
      ∧ Effect.pid_new ∈ pre ∧ sentPackets pre = []
      ∧ ctx.pid = none ∧ ctx1.pid = some p
      ∧ (∀ h2, filein_process h2 ctx1 = some (ctx1, GF_Err.GF_EOS, []))
      ∧ ∃ tr2, run_process (h :: hs) ctx
            = some (ctx1, List.replicate (hs.length + 1) GF_Err.GF_EOS, tr2)
          ∧ sentPackets tr2 = [pck] := by
  obtain ⟨s, content, hsrc, hctx⟩ := filein_initialize_ok h0 _ ctx tr hinit
  have hmod : (bs + 1) % 2 ^ 32 = bs + 1 := Nat.mod_eq_of_lt hbs
  simp only [freshCtx, hmod] at hctx hsrc
  have hlen : ((content.drop 0).take ctx.block_size).length
      < (List.replicate (bs + 1) 0).length := by
    rw [hctx]
    simp only [List.length_take, List.length_replicate]
    omega
  have hfirst := filein_process_first h ctx (List.replicate (bs + 1) 0) s
    { content := content, pos := 0 } p (by rw [hctx]) (by rw [hctx]) (by rw [hctx])
    (by rw [hctx]) hlen hp hk
  refine ⟨_, _, _, hfirst, ?_, ?_, by rw [hctx], rfl, ?_, ?_⟩
  · simp [filein_declare_pid]
  · exact sentPackets_pre _ _ _ (sentPackets_declare _ _ _ _ _ _)
  · intro h2
    exact filein_process_again h2 _ p rfl
  · refine ⟨_, run_process_first h hs ctx _ _ p hfirst rfl, ?_⟩
    rw [List.append_nil, sentPackets_append,
      sentPackets_pre _ _ _ (sentPackets_declare _ _ _ _ _ _)]
    rfl

theorem process_emits_once_witness :
    ∃ ctx1 pre pck,
      filein_process ⟨fun _ => none, fun _ => false, some 1, true⟩
          ( filein_initialize ⟨fun _ => some (bytes "0123456789"), fun _ => true, none, false⟩
            (freshCtx (some (bytes "test.x3d")) 16)).1
        = some (ctx1, GF_Err.GF_EOS, pre ++ [Effect.pck_send pck, Effect.pid_set_eos 1])
      ∧ Effect.pid_new ∈ pre ∧ sentPackets pre = []
      ∧ ( filein_initialize ⟨fun _ => some (bytes "0123456789"), fun _ => true, none, false⟩
            (freshCtx (some (bytes "test.x3d")) 16)).1.pid = none
      ∧ ctx1.pid = some 1
      ∧ (∀ h2, filein_process h2 ctx1 = some (ctx1, GF_Err.GF_EOS, []))
      ∧ ∃ tr2, run_process
            [⟨fun _ => none, fun _ => false, some 1, true⟩,
             ⟨fun _ => none, fun _ => false, some 2, true⟩]
            ( filein_initialize ⟨fun _ => some (bytes "0123456789"), fun _ => true, none, false⟩
              (freshCtx (some (bytes "test.x3d")) 16)).1
            = some (ctx1, List.replicate (1 + 1) GF_Err.GF_EOS, tr2)
          ∧ sentPackets tr2 = [pck] :=
  process_emits_once ⟨fun _ => some (bytes "0123456789"), fun _ => true, none, false⟩
    ⟨fun _ => none, fun _ => false, some 1, true⟩ (some (bytes "test.x3d")) 16
    ( filein_initialize ⟨fun _ => some (bytes "0123456789"), fun _ => true, none, false⟩
      (freshCtx (some (bytes "test.x3d")) 16)).1
    ( filein_initialize ⟨fun _ => some (bytes "0123456789"), fun _ => true, none, false⟩
      (freshCtx (some (bytes "test.x3d")) 16)).2.2 1
    [⟨fun _ => none, fun _ => false, some 2, true⟩] (by decide) (by decide) rfl rfl

/-- C3 as stated fails: after a successful initialize, a first process call on
which the host returns no PID sends no packet and returns a service error. -/
theorem process_emits_once_counterexample :
    ( filein_initialize ⟨fun _ => some (bytes "0123456789"), fun _ => true, none, false⟩
        (freshCtx (some (bytes "test.x3d")) 16)).2.1 = GF_Err.GF_OK
    ∧ (filein_process ⟨fun _ => none, fun _ => false, none, true⟩
        ( filein_initialize ⟨fun _ => some (bytes "0123456789"), fun _ => true, none, false⟩
          (freshCtx (some (bytes "test.x3d")) 16)).1).map
          (fun r => (r.2.1, sentPackets r.2.2, r.1.pid))
        = some (GF_Err.GF_SERVICE_ERROR, [], none) := by
  decide

/-! ## Start signals before the first process call -/

/-- C5, as the code has it: a start-playback signal delivered to a freshly
initialized context before its first filein_process call is not handled and
leaves the context as it is, whatever its start range and target PID, because
the context has no PID yet; the packet sent by the first process call that
follows carries the start offset of the context, which is still 0. -/
theorem play_before_first_process (h0 h : Host) (src : Option (List Nat)) (bs : Nat)
    (ctx : GF_FileInCtx) (tr : List Effect) (p : Nat) (target : Option Nat) (range : ℚ)
    (hbs : bs + 1 < 2 ^ 32)
    (hinit : filein_initialize h0 (freshCtx src bs) = (ctx, GF_Err.GF_OK, tr))
    (hp : h.gf_filter_pid_new = some p) (hk : h.gf_filter_pck_new_shared = true) :
    filein_process_event ctx
        { on_pid := target, type := GF_FEventType.GF_FEVT_PLAY, start_range := range }
      = some (ctx, false)
    ∧ ∃ ctx1 t pck,
        (filein_process_event ctx
            { on_pid := target, type := GF_FEventType.GF_FEVT_PLAY, start_range := range }).bind
          (fun r => filein_process h r.1) = some (ctx1, GF_Err.GF_EOS, t)
        ∧ sentPackets t = [pck] ∧ pck.cts = some ctx.start ∧ ctx.start = 0 := by
  obtain ⟨s, content, ctx1, t, pck, -, -, hstart, hpid, -, hproc, hsent, hpck, -⟩ :=
    filein_process_initialized h0 h src bs ctx tr p hbs hinit hp hk
  have hev : filein_process_event ctx
      { on_pid := target, type := GF_FEventType.GF_FEVT_PLAY, start_range := range }
      = some (ctx, false) := by
    unfold filein_process_event
    cases target with
    | none => rfl
    | some q => simp [hpid]
  refine ⟨hev, ctx1, t, pck, ?_, hsent, ?_, hstart⟩
  · rw [hev]; exact hproc
  · rw [hpck, hstart]

theorem play_before_first_process_witness :
    filein_process_event
        ( filein_initialize ⟨fun _ => some (bytes "0123456789"), fun _ => true, none, false⟩
          (freshCtx (some (bytes "test.x3d")) 16)).1
        { on_pid := some 1, type := GF_FEventType.GF_FEVT_PLAY, start_range := 5 / 2 }
      = some (( filein_initialize ⟨fun _ => some (bytes "0123456789"), fun _ => true, none, false⟩
          (freshCtx (some (bytes "test.x3d")) 16)).1, false)
    ∧ ∃ ctx1 t pck,
        (filein_process_event
            ( filein_initialize ⟨fun _ => some (bytes "0123456789"), fun _ => true, none, false⟩
              (freshCtx (some (bytes "test.x3d")) 16)).1
            { on_pid := some 1, type := GF_FEventType.GF_FEVT_PLAY, start_range := 5 / 2 }).bind
          (fun r => filein_process ⟨fun _ => none, fun _ => false, some 1, true⟩ r.1)
          = some (ctx1, GF_Err.GF_EOS, t)
        ∧ sentPackets t = [pck]
        ∧ pck.cts = some
          ( filein_initialize ⟨fun _ => some (bytes "0123456789"), fun _ => true, none, false⟩
            (freshCtx (some (bytes "test.x3d")) 16)).1.start
        ∧ ( filein_initialize ⟨fun _ => some (bytes "0123456789"), fun _ => true, none, false⟩
            (freshCtx (some (bytes "test.x3d")) 16)).1.start = 0 :=
  play_before_first_process ⟨fun _ => some (bytes "0123456789"), fun _ => true, none, false⟩
    ⟨fun _ => none, fun _ => false, some 1, true⟩ (some (bytes "test.x3d")) 16
    ( filein_initialize ⟨fun _ => some (bytes "0123456789"), fun _ => true, none, false⟩
      (freshCtx (some (bytes "test.x3d")) 16)).1
    ( filein_initialize ⟨fun _ => some (bytes "0123456789"), fun _ => true, none, false⟩
      (freshCtx (some (bytes "test.x3d")) 16)).2.2 1 (some 1) (5 / 2)
    (by decide) (by decide) rfl rfl

/-- C5 as stated fails: after a start-playback signal with start range 2.5
sent before the first process call, the packet of that call has composition
time 0, not 2500. -/
theorem play_before_first_process_counterexample :
    ((filein_process_event
        ( filein_initialize ⟨fun _ => some (bytes "0123456789"), fun _ => true, none, false⟩
          (freshCtx (some (bytes "test.x3d")) 16)).1
        { on_pid := some 1, type := GF_FEventType.GF_FEVT_PLAY, start_range := 5 / 2 }).bind
      (fun r => filein_process ⟨fun _ => none, fun _ => false, some 1, true⟩ r.1)).map
      (fun r => (sentPackets r.2.2).map (fun pck => pck.cts))
      = some [some 0]
    ∧ double_to_u32 (1000 * (5 / 2)) = some 2500 := by
  refine ⟨by decide, ?_⟩
  norm_num [double_to_u32]
  rfl

/-! ## The path handed to the file system -/

theorem cstr_cons (b : Nat) (bs : List Nat) :
    cstr (b :: bs) 0 = if b = 0 then [] else b :: cstr bs 0 := by
  by_cases h : b = 0
  · subst h; simp [cstr]
  · have hne : (b != 0) = true := by simpa using h
    simp [cstr, List.takeWhile, hne, h]

theorem cstr_poke_strchr (c : Nat) (hc : c ≠ 0) :
    ∀ s : List Nat, cstr (poke s (strchr s c) 0) 0 = (cstr s 0).takeWhile (fun b => b != c) := by
  intro s
  induction s with
  | nil => simp [strchr, hc, poke, cstr]
  | cons b bs ih =>
    by_cases hbc : b = c
    · subst hbc
      simp [strchr, poke, cstr_cons, hc, List.takeWhile]
    · by_cases hb0 : b = 0
      · subst hb0
        simp [strchr, Ne.symm hc, poke, cstr_cons]
      · have hp : poke (b :: bs) (strchr (b :: bs) c) 0 = b :: poke bs (strchr bs c) 0 := by
          simp only [strchr, hbc, hb0, if_false]
          cases strchr bs c <;> simp [poke]
        rw [hp, cstr_cons, cstr_cons, ih]
        simp [hb0, hbc, List.takeWhile]

theorem cstr_truncated (s : List Nat) :
    cstr (poke (poke s (strchr s 35) 0) (strchr (poke s (strchr s 35) 0) 63) 0) 0
      = spec_truncate (cstr s 0) := by
  rw [cstr_poke_strchr 63 (by decide), cstr_poke_strchr 35 (by decide), spec_truncate]
  generalize cstr s 0 = l
  induction l with
  | nil => rfl
  | cons a as ih =>
    by_cases h1 : a = 35
    · simp [List.takeWhile_cons, h1]
    · by_cases h2 : a = 63
      · simp [List.takeWhile_cons, h2]
      · simp [List.takeWhile_cons, h1, h2, ih]

theorem cstr_drop : ∀ (s : List Nat) (k : Nat), k ≤ (cstr s 0).length →
    cstr s k = (cstr s 0).drop k := by
  intro s
  induction s with
  | nil => intro k _; simp [cstr]
  | cons b bs ih =>
    intro k hk
    cases k with
    | zero => simp
    | succ k =>
      rw [cstr_cons] at hk ⊢
      by_cases hb : b = 0
      · simp [hb] at hk
      · simp only [hb, if_false, List.length_cons, Nat.add_le_add_iff_right] at hk
        simp only [hb, if_false, List.drop_succ_cons]
        rw [← ih k hk]
        simp [cstr]

theorem hasPrefixCI_nil_right (s : List Nat) : hasPrefixCI s [] = true := by
  simp [hasPrefixCI]

theorem hasPrefixCI_nil_cons (b : Nat) (bs : List Nat) : hasPrefixCI [] (b :: bs) = false := by
  simp [hasPrefixCI]

theorem hasPrefixCI_cons_cons (a b : Nat) (as bs : List Nat) :
    hasPrefixCI (a :: as) (b :: bs) = (tolower a == tolower b && hasPrefixCI as bs) := by
  simp [hasPrefixCI]

theorem strnicmp_zero_iff : ∀ (pre : List Nat), 0 ∉ pre → ∀ s : List Nat,
    (strnicmp s pre pre.length = 0 ↔ hasPrefixCI s pre = true) := by
  intro pre
  induction pre with
  | nil => intro _ s; simp [strnicmp, hasPrefixCI_nil_right]
  | cons b bs ih =>
    intro h0 s
    have hb : b ≠ 0 := fun e => h0 (by simp [e])
    have h0' : 0 ∉ bs := fun e => h0 (List.mem_cons_of_mem _ e)
    cases s with
    | nil =>
      have := tolower_ne_zero b hb
      simp only [List.length_cons, strnicmp, hasPrefixCI_nil_cons]
      constructor
      · intro e; exact absurd (by omega : tolower b = 0) this
      · intro e; cases e
    | cons a as =>
      simp only [List.length_cons, strnicmp, hasPrefixCI_cons_cons]
      by_cases hab : tolower a = tolower b
      · simp [hab, ih h0' as]
      · have hbeq : (tolower a == tolower b) = false := by simpa using hab
        simp only [hab, if_false, hbeq, Bool.false_and]
        constructor
        · intro e; exact absurd (by omega : tolower a = tolower b) hab
        · intro e; cases e

theorem hasPrefixCI_takeWhile (p : Nat → Bool) : ∀ (pre : List Nat),
    (∀ x, tolower x ∈ pre.map tolower → p x = true) → ∀ s : List Nat,
    hasPrefixCI (s.takeWhile p) pre = hasPrefixCI s pre := by
  intro pre
  induction pre with
  | nil => intro _ s; simp [hasPrefixCI_nil_right]
  | cons b bs ih =>
    intro hp s
    have hp' : ∀ x, tolower x ∈ bs.map tolower → p x = true :=
      fun x hx => hp x (by simp only [List.map_cons]; exact List.mem_cons_of_mem _ hx)
    cases s with
    | nil => simp
    | cons a as =>
      by_cases hpa : p a = true
      · simp [List.takeWhile, hpa, hasPrefixCI_cons_cons, ih hp' as]
      · have hab : tolower a ≠ tolower b := by
          intro e
          exact hpa (hp a (by simp [e]))
        simp [List.takeWhile, hpa, hasPrefixCI_cons_cons, hasPrefixCI_nil_cons, hab]

theorem hasPrefixCI_length (s pre : List Nat) (h : hasPrefixCI s pre = true) :
    pre.length ≤ s.length := by
  simp only [hasPrefixCI, beq_iff_eq] at h
  have := congrArg List.length h
  simp only [List.length_map, List.length_take] at this
  omega

theorem takeWhile_drop (p : Nat → Bool) : ∀ (s : List Nat) (k : Nat),
    k ≤ (s.takeWhile p).length → (s.drop k).takeWhile p = (s.takeWhile p).drop k := by
  intro s
  induction s with
  | nil => intro k _; simp
  | cons a as ih =>
    intro k hk
    cases k with
    | zero => simp
    | succ k =>
      by_cases hpa : p a = true
      · simp only [List.takeWhile, hpa, List.length_cons, Nat.add_le_add_iff_right] at hk
        simp [List.takeWhile, hpa, ih k hk]
      · simp [List.takeWhile, hpa] at hk
theorem skip_file_scheme_eq (c : List Nat) :
    skip_file_scheme c
      = if hasPrefixCI c (bytes "file://") = true then 7
        else if hasPrefixCI c (bytes "file:") = true then 5 else 0 := by
  have h7 := strnicmp_zero_iff (bytes "file://") (by decide) c
  have h5 := strnicmp_zero_iff (bytes "file:") (by decide) c
  rw [show (bytes "file://").length = 7 by decide] at h7
  rw [show (bytes "file:").length = 5 by decide] at h5
  unfold skip_file_scheme
  simp only [h7, h5]

theorem scheme_bytes_kept (pre : List Nat)
    (hpre : ∀ y ∈ pre.map tolower, y = 102 ∨ y = 105 ∨ y = 108 ∨ y = 101 ∨ y = 58 ∨ y = 47) :
    ∀ x, tolower x ∈ pre.map tolower → (x != 35 && x != 63) = true := by
  intro x hx
  have := hpre _ hx
  have h1 : x ≠ 35 := by
    intro e; subst e; simp [tolower] at this
  have h2 : x ≠ 63 := by
    intro e; subst e; simp [tolower] at this
  simp [h1, h2]

theorem skip_file_scheme_truncate (c : List Nat) :
    skip_file_scheme (spec_truncate c) = skip_file_scheme c := by
  rw [skip_file_scheme_eq, skip_file_scheme_eq]
  unfold spec_truncate
  rw [hasPrefixCI_takeWhile _ (bytes "file://") (scheme_bytes_kept _ (by decide)),
    hasPrefixCI_takeWhile _ (bytes "file:") (scheme_bytes_kept _ (by decide))]

theorem skip_file_scheme_le (c : List Nat) : skip_file_scheme c ≤ c.length := by
  rw [skip_file_scheme_eq]
  split_ifs with h7 h5
  · exact hasPrefixCI_length _ _ h7
  · exact hasPrefixCI_length _ _ h5
  · exact Nat.zero_le _

theorem spec_strip_scheme_eq (c : List Nat) :
    spec_strip_scheme c = c.drop (skip_file_scheme c) := by
  rw [skip_file_scheme_eq]
  unfold spec_strip_scheme
  split_ifs <;> simp

/-- The path both callbacks hand to the file system is the path of the
specification: scheme prefix removed, then cut at the first sharp or question
mark. -/
theorem truncated_path_eq (s : List Nat) :
    cstr (poke (poke s (strchr s 35) 0) (strchr (poke s (strchr s 35) 0) 63) 0)
        (skip_file_scheme (cstr s 0))
      = spec_local_path (cstr s 0) := by
  have hk : skip_file_scheme (cstr s 0) ≤ (spec_truncate (cstr s 0)).length := by
    rw [← skip_file_scheme_truncate]
    exact skip_file_scheme_le _
  rw [cstr_drop _ _ (by rw [cstr_truncated]; exact hk), cstr_truncated, spec_local_path,
    spec_strip_scheme_eq]
  unfold spec_truncate at hk ⊢
  rw [takeWhile_drop _ _ _ hk]

theorem initialize_path_eq (s : List Nat) :
    cstr (poke (poke s (strchr s 35) 0) (strchr (poke s (strchr s 35) 0) 63) 0)
        (skip_file_scheme
          (cstr (poke (poke s (strchr s 35) 0) (strchr (poke s (strchr s 35) 0) 63) 0) 0))
      = spec_local_path (cstr s 0) := by
  rw [cstr_truncated, skip_file_scheme_truncate, truncated_path_eq]
theorem unsupported_cond_iff (c : List Nat) :
    (strnicmp c (bytes "file:/") 6 ≠ 0 ∧ (strstr c (bytes "://")).isSome = true)
      ↔ (hasPrefixCI c (bytes "file:/") = false ∧ bytes "://" <:+: c) := by
  have h6 := strnicmp_zero_iff (bytes "file:/") (by decide) c
  rw [show (bytes "file:/").length = 6 by decide] at h6
  rw [strstr_isSome, decide_eq_true_iff, Ne, h6, Bool.not_eq_true]

/-- The three ways filein_initialize ends on a context with a locator, with
the path and the scheme test written as the specification has them. -/
theorem filein_initialize_cases (h : Host) (ctx : GF_FileInCtx) (s : List Nat)
    (hs : ctx.src = some s) :
    filein_initialize h ctx =
      if hasPrefixCI (cstr s 0) (bytes "file:/") = false ∧ bytes "://" <:+: cstr s 0 then
        (ctx, GF_Err.GF_NOT_SUPPORTED, [Effect.setup_failure GF_Err.GF_NOT_SUPPORTED])
      else
        match h.gf_fopen (spec_local_path (cstr s 0)) with
        | none =>
          ({ ctx with src := some s, file := none }, GF_Err.GF_URL_ERROR,
            [Effect.fopen (spec_local_path (cstr s 0)),
             Effect.setup_failure GF_Err.GF_URL_ERROR])
        | some content =>
          ({ ctx with src := some s, file := some { content := content, pos := 0 },
                      file_size := content.length % 2 ^ 64,
                      block := some (List.replicate ((ctx.block_size + 1) % 2 ^ 32) 0) },
            GF_Err.GF_OK,
            [Effect.fopen (spec_local_path (cstr s 0)), Effect.fseek_end, Effect.ftell,
             Effect.fseek_set, Effect.malloc ((ctx.block_size + 1) % 2 ^ 32)]) := by
  unfold filein_initialize
  simp only [hs, unsupported_cond_iff, initialize_path_eq, poke_restore]

/-! ## Packet payload -/

/-- C6 at a failing input: a 10-byte file read with block_size 16. The packet
sent shares the block buffer, whose first 10 bytes are the bytes read, and the
read position has advanced by 10, but the packet is declared with data size 0. -/
theorem packet_data_size_at_failing_input :
    (filein_process ⟨fun _ => none, fun _ => false, some 1, true⟩
        ( filein_initialize ⟨fun _ => some (bytes "0123456789"), fun _ => true, none, false⟩
          (freshCtx (some (bytes "test.x3d")) 16)).1).map
      (fun r => ((sentPackets r.2.2).map
          (fun pck => (pck.shared, pck.data.take 10, some pck.data == r.1.block, pck.data_size)),
        r.1.file.map (fun f => f.pos)))
      = some ([(true, bytes "0123456789", true, 0)], some 10) := by
  decide

/-! ## Scheme test and open path of filein_initialize -/

/-- C7, with the scheme test of the code: on a context with a locator,
filein_initialize returns the unsupported error exactly when the locator
contains :// and does not start, letter case ignored, with file:/ ; in that
case it only reports the setup failure, opens nothing and leaves the context
as it was; in every other case its first host call opens the path of the
locator. -/
theorem initialize_unsupported_iff (h : Host) (ctx : GF_FileInCtx) (s : List Nat) :
    (( filein_initialize h { ctx with src := some s }).2.1 = GF_Err.GF_NOT_SUPPORTED
      ↔ (bytes "://" <:+: cstr s 0 ∧ hasPrefixCI (cstr s 0) (bytes "file:/") = false))
    ∧ ((( filein_initialize h { ctx with src := some s }).2.1 = GF_Err.GF_NOT_SUPPORTED
        ∧ ( filein_initialize h { ctx with src := some s }).2.2
            = [Effect.setup_failure GF_Err.GF_NOT_SUPPORTED]
        ∧ ( filein_initialize h { ctx with src := some s }).1 = { ctx with src := some s })
      ∨ (( filein_initialize h { ctx with src := some s }).2.1 ≠ GF_Err.GF_NOT_SUPPORTED
        ∧ ∃ rest, ( filein_initialize h { ctx with src := some s }).2.2
            = Effect.fopen (spec_local_path (cstr s 0)) :: rest)) := by
  rw [filein_initialize_cases h { ctx with src := some s } s rfl]
  by_cases hc : hasPrefixCI (cstr s 0) (bytes "file:/") = false ∧ bytes "://" <:+: cstr s 0
  · rw [if_pos hc]
    exact ⟨⟨fun _ => ⟨hc.2, hc.1⟩, fun _ => rfl⟩, Or.inl ⟨rfl, rfl, rfl⟩⟩
  · rw [if_neg hc]
    cases h.gf_fopen (spec_local_path (cstr s 0)) with
    | none =>
      refine ⟨Iff.intro (fun e => ?_) (fun e => absurd ⟨e.2, e.1⟩ hc), Or.inr ⟨?_, _, rfl⟩⟩
      · exact absurd e (show GF_Err.GF_URL_ERROR ≠ GF_Err.GF_NOT_SUPPORTED by decide)
      · show GF_Err.GF_URL_ERROR ≠ GF_Err.GF_NOT_SUPPORTED
        decide
    | some content =>
      refine ⟨Iff.intro (fun e => ?_) (fun e => absurd ⟨e.2, e.1⟩ hc), Or.inr ⟨?_, _, rfl⟩⟩
      · exact absurd e (show GF_Err.GF_OK ≠ GF_Err.GF_NOT_SUPPORTED by decide)
      · show GF_Err.GF_OK ≠ GF_Err.GF_NOT_SUPPORTED
        decide

/-- C7 as stated fails: the locator file:a://b starts with file: and is still
rejected as unsupported, with nothing opened. -/
theorem initialize_unsupported_counterexample :
    ( filein_initialize ⟨fun _ => some (bytes "0123456789"), fun _ => true, none, false⟩
        (freshCtx (some (bytes "file:a://b")) 16)).2
      = (GF_Err.GF_NOT_SUPPORTED, [Effect.setup_failure GF_Err.GF_NOT_SUPPORTED])
    ∧ hasPrefixCI (bytes "file:a://b") (bytes "file:") = true := by
  decide

/-- C8, with the scheme prefix compared ignoring letter case as the code does:
when filein_initialize does not reject the locator as unsupported, its first
host call opens the locator with a leading file:// (else a leading file:)
removed, letter case of the scheme ignored, and then cut at the first sharp or
question mark; that path holds neither byte and is a suffix of the truncated
locator, so the scheme offset stays inside the truncated string. -/
theorem initialize_open_path (h : Host) (ctx : GF_FileInCtx) (s : List Nat)
    (hacc : ( filein_initialize h { ctx with src := some s }).2.1 ≠ GF_Err.GF_NOT_SUPPORTED) :
    (∃ rest, ( filein_initialize h { ctx with src := some s }).2.2
        = Effect.fopen (spec_truncate (spec_strip_scheme (cstr s 0))) :: rest)
    ∧ 35 ∉ spec_truncate (spec_strip_scheme (cstr s 0))
    ∧ 63 ∉ spec_truncate (spec_strip_scheme (cstr s 0))
    ∧ spec_truncate (spec_strip_scheme (cstr s 0)) <:+ spec_truncate (cstr s 0) := by
  refine ⟨?_, ?_, ?_, ?_⟩
  · rw [filein_initialize_cases h { ctx with src := some s } s rfl] at hacc ⊢
    by_cases hc : hasPrefixCI (cstr s 0) (bytes "file:/") = false ∧ bytes "://" <:+: cstr s 0
    · rw [if_pos hc] at hacc
      exact absurd rfl hacc
    · rw [if_neg hc]
      cases h.gf_fopen (spec_local_path (cstr s 0)) <;> exact ⟨_, rfl⟩
  · intro hm
    have := List.mem_takeWhile_imp hm
    simp at this
  · intro hm
    have := List.mem_takeWhile_imp hm
    simp at this
  · have hk : skip_file_scheme (cstr s 0) ≤ (spec_truncate (cstr s 0)).length := by
      rw [← skip_file_scheme_truncate]
      exact skip_file_scheme_le _
    rw [spec_strip_scheme_eq]
    unfold spec_truncate at hk ⊢
    rw [takeWhile_drop _ _ _ hk]
    exact List.drop_suffix _ _

theorem initialize_open_path_witness :
    (∃ rest, ( filein_initialize ⟨fun _ => none, fun _ => false, none, false⟩
          { freshCtx none 16 with src := some (bytes "FILE://dir/a.x3d?x=1#top") }).2.2
        = Effect.fopen (spec_truncate (spec_strip_scheme
            (cstr (bytes "FILE://dir/a.x3d?x=1#top") 0))) :: rest)
    ∧ 35 ∉ spec_truncate (spec_strip_scheme (cstr (bytes "FILE://dir/a.x3d?x=1#top") 0))
    ∧ 63 ∉ spec_truncate (spec_strip_scheme (cstr (bytes "FILE://dir/a.x3d?x=1#top") 0))
    ∧ spec_truncate (spec_strip_scheme (cstr (bytes "FILE://dir/a.x3d?x=1#top") 0))
        <:+ spec_truncate (cstr (bytes "FILE://dir/a.x3d?x=1#top") 0) :=
  initialize_open_path ⟨fun _ => none, fun _ => false, none, false⟩ (freshCtx none 16)
    (bytes "FILE://dir/a.x3d?x=1#top") (by decide)

/-- C8 as stated fails: the locator FILE://x is accepted as local and the path
opened is x, while removing a leading file:// or file: read letter for letter
leaves FILE://x. -/
theorem initialize_open_path_counterexample :
    ( filein_initialize ⟨fun _ => none, fun _ => false, none, false⟩
        (freshCtx (some (bytes "FILE://x")) 16)).2.1 ≠ GF_Err.GF_NOT_SUPPORTED
    ∧ ( filein_initialize ⟨fun _ => none, fun _ => false, none, false⟩
        (freshCtx (some (bytes "FILE://x")) 16)).2.2.head? = some (Effect.fopen (bytes "x"))
    ∧ spec_truncate (spec_strip_scheme_literal (bytes "FILE://x")) = bytes "FILE://x"
    ∧ bytes "FILE://x" ≠ bytes "x" := by
  decide

/-! ## The probe -/

/-- C9: filein_probe_url makes one host call, the existence check on the path
of the locator (scheme prefix removed, cut at the first sharp or question
mark); it returns supported exactly when that check succeeds and not supported
otherwise, whatever the MIME hint; and when filein_initialize does not reject
the same locator as unsupported, the path it opens is that same path. -/
theorem probe_url_checks_open_path (h h2 : Host) (ctx : GF_FileInCtx) (url : List Nat)
    (mt mt2 : Option (List Nat)) :
    (filein_probe_url h url mt).2.2 = [Effect.file_exists (spec_local_path (cstr url 0))]
    ∧ ((filein_probe_url h url mt).2.1 = GF_FilterProbeScore.GF_FPROBE_SUPPORTED
        ↔ h.gf_file_exists (spec_local_path (cstr url 0)) = true)
    ∧ ((filein_probe_url h url mt).2.1 = GF_FilterProbeScore.GF_FPROBE_NOT_SUPPORTED
        ↔ h.gf_file_exists (spec_local_path (cstr url 0)) = false)
    ∧ filein_probe_url h url mt = filein_probe_url h url mt2
    ∧ (( filein_initialize h2 { ctx with src := some url }).2.1 = GF_Err.GF_NOT_SUPPORTED
      ∨ ∃ rest, ( filein_initialize h2 { ctx with src := some url }).2.2
          = Effect.fopen (spec_local_path (cstr url 0)) :: rest) := by
  refine ⟨?_, ?_, ?_, rfl, ?_⟩
  · simp only [filein_probe_url, truncated_path_eq]
  · simp only [filein_probe_url, truncated_path_eq]
    cases h.gf_file_exists (spec_local_path (cstr url 0)) <;> simp
  · simp only [filein_probe_url, truncated_path_eq]
    cases h.gf_file_exists (spec_local_path (cstr url 0)) <;> simp
  · rw [filein_initialize_cases h2 { ctx with src := some url } url rfl]
    by_cases hc : hasPrefixCI (cstr url 0) (bytes "file:/") = false
        ∧ bytes "://" <:+: cstr url 0
    · rw [if_pos hc]; exact Or.inl rfl
    · rw [if_neg hc]
      cases h2.gf_fopen (spec_local_path (cstr url 0)) <;> exact Or.inr ⟨_, rfl⟩

/-! ## Failure of filein_initialize -/

/-- C10: on a fresh context filein_initialize either returns success with a
file handle that is not NULL, or returns one of its three errors (missing
locator, unsupported scheme, open failure) and leaves the context exactly as
it was: no file handle, no block buffer, file size, start offset and PID
untouched, locator as before. -/
theorem initialize_failure_keeps_nothing (h : Host) (src : Option (List Nat)) (bs : Nat) :
    (( filein_initialize h (freshCtx src bs)).2.1 = GF_Err.GF_OK
      ∧ ( filein_initialize h (freshCtx src bs)).1.file.isSome = true)
    ∨ ((( filein_initialize h (freshCtx src bs)).2.1 = GF_Err.GF_BAD_PARAM
        ∨ ( filein_initialize h (freshCtx src bs)).2.1 = GF_Err.GF_NOT_SUPPORTED
        ∨ ( filein_initialize h (freshCtx src bs)).2.1 = GF_Err.GF_URL_ERROR)
      ∧ ( filein_initialize h (freshCtx src bs)).1 = freshCtx src bs
      ∧ ( filein_initialize h (freshCtx src bs)).1.file = none
      ∧ ( filein_initialize h (freshCtx src bs)).1.block = none) := by
  cases src with
  | none => exact Or.inr ⟨Or.inl rfl, rfl, rfl, rfl⟩
  | some s =>
    rw [filein_initialize_cases h (freshCtx (some s) bs) s rfl]
    by_cases hc : hasPrefixCI (cstr s 0) (bytes "file:/") = false ∧ bytes "://" <:+: cstr s 0
    · rw [if_pos hc]
      exact Or.inr ⟨Or.inr (Or.inl rfl), rfl, rfl, rfl⟩
    · rw [if_neg hc]
      cases h.gf_fopen (spec_local_path (cstr s 0)) with
      | none => exact Or.inr ⟨Or.inr (Or.inr rfl), rfl, rfl, rfl⟩
      | some content => exact Or.inl ⟨rfl, rfl⟩

/-! ## Sniffer examples -/

theorem sniff_seven_values (p : List Nat) :
    filein_sniff p ∈ [none, some (bytes "application/x-xmt"), some (bytes "application/x-bt"),
      some (bytes "model/vrml"), some (bytes "model/x3d+vrml"), some (bytes "model/x3d+xml"),
      some (bytes "application/x-LASeR+xml"), some (bytes "application/widget")] := by
  unfold filein_sniff
  split_ifs <;> simp

/-- C11, with the first marker as the source has it (<XMT-A without the
closing bracket): with no prior MIME type, the prefix
<svg xmlns="http://www.w3.org/2000/svg"> is typed application/widget; a prefix
that contains #VRML V2.0 utf8 and none of the markers of the two rows above
it is typed model/vrml; a prefix that contains none of the markers of the
table gets no MIME type; and the type set, if any, is one of the seven of the
table. -/
theorem sniff_examples (h : Host) (url : List Nat) (lf : Option (List Nat)) (p q r : List Nat)
    (n : Nat) (hv : bytes "#VRML V2.0 utf8" <:+: cstr p 0)
    (hp : ∀ m ∈ tableMarkers (source_marker_table.take 2), ¬ m <:+: cstr p 0)
    (hq : ∀ m ∈ tableMarkers source_marker_table, ¬ m <:+: cstr q 0) :
    propOf PidProp.GF_PROP_PID_MIME
        (filein_declare_pid h url lf none
          (some (bytes "<svg xmlns=\"http://www.w3.org/2000/svg\">")) n).trace
      = some (bytes "application/widget")
    ∧ propOf PidProp.GF_PROP_PID_MIME (filein_declare_pid h url lf none (some p) n).trace
      = some (bytes "model/vrml")
    ∧ propOf PidProp.GF_PROP_PID_MIME (filein_declare_pid h url lf none (some q) n).trace = none
    ∧ propOf PidProp.GF_PROP_PID_MIME (filein_declare_pid h url lf none (some r) n).trace
      ∈ [none, some (bytes "application/x-xmt"), some (bytes "application/x-bt"),
          some (bytes "model/vrml"), some (bytes "model/x3d+vrml"), some (bytes "model/x3d+xml"),
          some (bytes "application/x-LASeR+xml"), some (bytes "application/widget")] := by
  refine ⟨?_, ?_, ?_, ?_⟩
  · rw [propOf_mime_declare]; decide
  · rw [propOf_mime_declare]
    have h1 := hp (bytes "<XMT-A") (by decide)
    have h2 := hp (bytes ":mpeg4:xmta:") (by decide)
    have h3 := hp (bytes "InitialObjectDescriptor") (by decide)
    have h4 := hp (bytes "EXTERNPROTO") (by decide)
    unfold filein_sniff
    simp only [strstr_isSome, h1, h2, h3, h4, hv, decide_False, decide_True, Bool.or_self,
      Bool.false_and, Bool.false_eq_true, if_false, if_true]
  · rw [propOf_mime_declare]
    have h1 := hq (bytes "<XMT-A") (by decide)
    have h2 := hq (bytes ":mpeg4:xmta:") (by decide)
    have h3 := hq (bytes "InitialObjectDescriptor") (by decide)
    have h4 := hq (bytes "EXTERNPROTO") (by decide)
    have h5 := hq (bytes "#VRML V2.0 utf8") (by decide)
    have h6 := hq (bytes "#X3D V3.0") (by decide)
    have h7 := hq (bytes "<X3D") (by decide)
    have h8 := hq (bytes "/x3d-3.0.dtd") (by decide)
    have h9 := hq (bytes "<saf") (by decide)
    have h10 := hq (bytes "mpeg4:SAF:2005") (by decide)
    have h11 := hq (bytes "mpeg4:LASeR:2005") (by decide)
    have h12 := hq (bytes "<svg") (by decide)
    have h13 := hq (bytes "w3.org/2000/svg") (by decide)
    unfold filein_sniff
    simp only [strstr_isSome, h1, h2, h3, h4, h5, h6, h7, h8, h9, h10, h11, h12, h13,
      decide_False, Bool.or_self, Bool.false_and, Bool.false_eq_true, if_false]
  · rw [propOf_mime_declare]; exact sniff_seven_values _

theorem sniff_examples_witness :
    propOf PidProp.GF_PROP_PID_MIME
        (filein_declare_pid ⟨fun _ => none, fun _ => false, some 1, true⟩ (bytes "a")
          none none (some (bytes "<svg xmlns=\"http://www.w3.org/2000/svg\">")) 0).trace
      = some (bytes "application/widget")
    ∧ propOf PidProp.GF_PROP_PID_MIME
        (filein_declare_pid ⟨fun _ => none, fun _ => false, some 1, true⟩ (bytes "a")
          none none (some (bytes "#VRML V2.0 utf8 <svg")) 0).trace
      = some (bytes "model/vrml")
    ∧ propOf PidProp.GF_PROP_PID_MIME
        (filein_declare_pid ⟨fun _ => none, fun _ => false, some 1, true⟩ (bytes "a")
          none none (some (bytes "plain text")) 0).trace = none
    ∧ propOf PidProp.GF_PROP_PID_MIME
        (filein_declare_pid ⟨fun _ => none, fun _ => false, some 1, true⟩ (bytes "a")
          none none (some (bytes "<X3D>")) 0).trace
      ∈ [none, some (bytes "application/x-xmt"), some (bytes "application/x-bt"),
          some (bytes "model/vrml"), some (bytes "model/x3d+vrml"), some (bytes "model/x3d+xml"),
          some (bytes "application/x-LASeR+xml"), some (bytes "application/widget")] :=
  sniff_examples ⟨fun _ => none, fun _ => false, some 1, true⟩ (bytes "a") none
    (bytes "#VRML V2.0 utf8 <svg") (bytes "plain text") (bytes "<X3D>") 0
    (by decide) (by decide) (by decide)

/-- C11 as stated fails: the prefix #VRML V2.0 utf8 <XMT-A x contains the VRML
marker and none of the markers the specification lists in the two rows above
it, and is typed application/x-xmt; the prefix <XMT-A x contains none of the
markers the specification lists and still gets a MIME type. -/
theorem sniff_examples_counterexample :
    (bytes "#VRML V2.0 utf8" <:+: cstr (bytes "#VRML V2.0 utf8 <XMT-A x") 0
      ∧ (∀ m ∈ tableMarkers (spec_marker_table.take 2),
          ¬ m <:+: cstr (bytes "#VRML V2.0 utf8 <XMT-A x") 0)
      ∧ propOf PidProp.GF_PROP_PID_MIME
          (filein_declare_pid ⟨fun _ => none, fun _ => false, some 1, true⟩ (bytes "a")
            none none (some (bytes "#VRML V2.0 utf8 <XMT-A x")) 0).trace
        = some (bytes "application/x-xmt"))
    ∧ ((∀ m ∈ tableMarkers spec_marker_table, ¬ m <:+: cstr (bytes "<XMT-A x") 0)
      ∧ propOf PidProp.GF_PROP_PID_MIME
          (filein_declare_pid ⟨fun _ => none, fun _ => false, some 1, true⟩ (bytes "a")
            none none (some (bytes "<XMT-A x")) 0).trace
        = some (bytes "application/x-xmt")) := by
  decide

/-! ## The start offset stored by a start signal -/

theorem double_to_u32_floor (q : ℚ) (h0 : 0 ≤ q) (hq : q < 2 ^ 32) :
    double_to_u32 q = some (⌊q⌋).toNat := by
  have hnum : 0 ≤ q.num := Rat.num_nonneg.2 h0
  have hden : (0 : Int) ≤ (q.den : Int) := Int.natCast_nonneg _
  have ht : Int.tdiv q.num (q.den : Int) = ⌊q⌋ := by
    rw [Int.tdiv_eq_ediv hnum hden, Rat.floor_def]
  have hf0 : 0 ≤ ⌊q⌋ := Int.floor_nonneg.2 h0
  have hf1 : ⌊q⌋ < 2 ^ 32 := by
    rw [Int.floor_lt]
    exact_mod_cast hq
  unfold double_to_u32
  simp only [ht, hf0, hf1, and_self, if_true]

theorem roundHalfEven_of_near (x : ℚ) (n : Int) (h1 : (n : ℚ) - 1 / 2 < x)
    (h2 : x < (n : ℚ) + 1 / 2) : roundHalfEven x = n := by
  unfold roundHalfEven
  by_cases hx : (n : ℚ) ≤ x
  · have hf : ⌊x⌋ = n := by
      rw [Int.floor_eq_iff]
      exact ⟨hx, by linarith⟩
    rw [hf]
    have : x - (n : ℚ) < 1 / 2 := by linarith
    simp only [this, if_true]
  · have hx' : x < (n : ℚ) := lt_of_not_le hx
    have hf : ⌊x⌋ = n - 1 := by
      rw [Int.floor_eq_iff]
      push_cast
      exact ⟨by linarith, by linarith⟩
    rw [hf]
    push_cast
    have h3 : ¬ (x - ((n : ℚ) - 1) < 1 / 2) := by linarith
    have h4 : 1 / 2 < x - ((n : ℚ) - 1) := by linarith
    simp only [h3, h4, if_false, if_true]
    ring

theorem roundHalfEven_nonneg (x : ℚ) (hx : 0 ≤ x) : 0 ≤ roundHalfEven x := by
  have hf : 0 ≤ ⌊x⌋ := Int.floor_nonneg.2 hx
  unfold roundHalfEven
  split_ifs <;> omega

theorem round_binary64_nonneg (q : ℚ) (hq : 0 ≤ q) : 0 ≤ round_binary64 q := by
  unfold round_binary64
  by_cases h0 : q = 0
  · simp [h0]
  · have hlt : ¬ q < 0 := not_lt.2 hq
    simp only [h0, hlt, if_false, one_mul]
    have hpow : (0 : ℚ) < (2 : ℚ) ^ (max (Int.log 2 |q|) (-1022) - 52) := by positivity
    have hr : 0 ≤ roundHalfEven (|q| / (2 : ℚ) ^ (max (Int.log 2 |q|) (-1022) - 52)) :=
      roundHalfEven_nonneg _ (div_nonneg (abs_nonneg q) hpow.le)
    have hr' : (0 : ℚ) ≤ (roundHalfEven
        (|q| / (2 : ℚ) ^ (max (Int.log 2 |q|) (-1022) - 52)) : ℚ) := by exact_mod_cast hr
    exact mul_nonneg hr' hpow.le

/-- Evaluation of the binary64 rounding of a positive value with binary
exponent e and nearest significand n. -/
theorem round_binary64_of (q : ℚ) (e n : Int) (h1 : (2 : ℚ) ^ e ≤ q) (h2 : q < (2 : ℚ) ^ (e + 1))
    (he : -1022 ≤ e) (hn1 : (n : ℚ) - 1 / 2 < q / (2 : ℚ) ^ (e - 52))
    (hn2 : q / (2 : ℚ) ^ (e - 52) < (n : ℚ) + 1 / 2) :
    round_binary64 q = (n : ℚ) * (2 : ℚ) ^ (e - 52) := by
  have hpos : 0 < q := lt_of_lt_of_le (by positivity) h1
  have habs : |q| = q := abs_of_pos hpos
  have hlog : Int.log 2 q = e := by
    have ha : e ≤ Int.log 2 q :=
      (Int.zpow_le_iff_le_log (by norm_num : 1 < 2) hpos).1 (by exact_mod_cast h1)
    have hb : Int.log 2 q < e + 1 :=
      (Int.lt_zpow_iff_log_lt (by norm_num : 1 < 2) hpos).1 (by exact_mod_cast h2)
    omega
  unfold round_binary64
  have h0 : q ≠ 0 := ne_of_gt hpos
  have hlt : ¬ q < 0 := not_lt.2 hpos.le
  simp only [h0, hlt, if_false, one_mul, habs, hlog, max_eq_left he,
    roundHalfEven_of_near _ n hn1 hn2]

/-- The double nearest to 4.35 is 2448832297382707 / 2^49; its product with
1000 rounds up to 4350 although the exact product is below 4350. -/
theorem double_mul_rounds_up :
    double_mul 1000 (2448832297382707 / 562949953421312) = 4350
    ∧ (1000 : ℚ) * (2448832297382707 / 562949953421312) < 4350 := by
  refine ⟨?_, by norm_num⟩
  unfold double_mul
  rw [round_binary64_of _ 12 4782875580825600 (by norm_num) (by norm_num) (by norm_num)
    (by norm_num) (by norm_num)]
  norm_num

/-- The product of 1000 and 3/4096 is a binary64 value, so it is not rounded. -/
theorem double_mul_exact_example : double_mul 1000 (3 / 4096) = 375 / 512 := by
  unfold double_mul
  rw [round_binary64_of _ (-1) 6597069766656000 (by norm_num) (by norm_num) (by norm_num)
    (by norm_num) (by norm_num)]
  norm_num

/-- C12, with the conversion the code performs: a start-playback signal
addressed to the own output PID of the context is handled and stores the
integer part of the double product 1000 x start_range (the exact product
rounded to binary64, then truncated by the cast to u32), not the nearest
integer to 1000 x start_range; for every start range that is not negative and
whose double product is below 2^32. -/
theorem play_stores_truncation (ctx : GF_FileInCtx) (p : Nat) (r : ℚ) (h0 : 0 ≤ r)
    (hr : double_mul 1000 r < 2 ^ 32) :
    filein_process_event { ctx with pid := some p }
        { on_pid := some p, type := GF_FEventType.GF_FEVT_PLAY, start_range := r }
      = some ({ ctx with pid := some p, start := (⌊double_mul 1000 r⌋).toNat }, true)
    ∧ (((⌊double_mul 1000 r⌋).toNat : ℚ) ≤ double_mul 1000 r
      ∧ double_mul 1000 r < ((⌊double_mul 1000 r⌋).toNat : ℚ) + 1) := by
  have hq0 : (0 : ℚ) ≤ double_mul 1000 r :=
    round_binary64_nonneg _ (by positivity)
  refine ⟨?_, ?_⟩
  · unfold filein_process_event
    simp only [ne_eq, not_true_eq_false, if_false, double_to_u32_floor _ hq0 hr]
  · have hf0 : 0 ≤ ⌊double_mul 1000 r⌋ := Int.floor_nonneg.2 hq0
    have hcast : (((⌊double_mul 1000 r⌋).toNat : Int) : ℚ)
        = ((⌊double_mul 1000 r⌋ : Int) : ℚ) := by
      rw [Int.toNat_of_nonneg hf0]
    have hcast2 : (((⌊double_mul 1000 r⌋).toNat : ℕ) : ℚ)
        = ((⌊double_mul 1000 r⌋ : Int) : ℚ) := by
      rw [← hcast]; norm_cast
    rw [hcast2]
    exact ⟨Int.floor_le _, Int.lt_floor_add_one _⟩

theorem play_stores_truncation_witness :
    (double_mul 1000 (2448832297382707 / 562949953421312) = 4350
      ∧ (1000 : ℚ) * (2448832297382707 / 562949953421312) < 4350)
    ∧ (filein_process_event { freshCtx none 16 with pid := some 1 }
        { on_pid := some 1, type := GF_FEventType.GF_FEVT_PLAY,
          start_range := 2448832297382707 / 562949953421312 }
      = some ({ freshCtx none 16 with
                pid := some 1,
                start := (⌊double_mul 1000 (2448832297382707 / 562949953421312)⌋).toNat },
              true)
    ∧ (((⌊double_mul 1000 (2448832297382707 / 562949953421312)⌋).toNat : ℚ)
          ≤ double_mul 1000 (2448832297382707 / 562949953421312)
      ∧ double_mul 1000 (2448832297382707 / 562949953421312)
          < ((⌊double_mul 1000 (2448832297382707 / 562949953421312)⌋).toNat : ℚ) + 1)) :=
  ⟨double_mul_rounds_up,
   play_stores_truncation (freshCtx none 16) 1 (2448832297382707 / 562949953421312)
    (by norm_num) (by rw [double_mul_rounds_up.1]; norm_num)⟩

/-- C12 as stated fails: for the start range 3/4096 (0.000732421875 s), addressed to
the own PID, the event is handled and the stored offset is 0, while the
nearest integer to 1000 x 3/4096 = 0.732421875 is 1 (the product is a binary64
value, so the double multiplication is exact here). -/
theorem play_stores_truncation_counterexample :
    (filein_process_event { freshCtx none 16 with pid := some 1 }
        { on_pid := some 1, type := GF_FEventType.GF_FEVT_PLAY, start_range := 3 / 4096 }).map
      (fun x => (x.1.start, x.2)) = some (0, true)
    ∧ round ((1000 : ℚ) * (3 / 4096)) = 1 := by
  refine ⟨?_, ?_⟩
  · have h := double_to_u32_floor (double_mul 1000 (3 / 4096))
      (by rw [double_mul_exact_example]; norm_num) (by rw [double_mul_exact_example]; norm_num)
    have hf : ⌊double_mul 1000 (3 / 4096)⌋ = 0 := by
      rw [double_mul_exact_example, Int.floor_eq_iff]; norm_num
    rw [hf] at h
    unfold filein_process_event
    simp only [freshCtx, ne_eq, not_true_eq_false, if_false, h]
    rfl
  · rw [round_eq, Int.floor_eq_iff]; norm_num

/-! ## Frame of filein_process_event -/

/-- C13: filein_process_event returns not handled and leaves the context as it
is when the event has no target PID or a target other than the PID of the
context; on the own PID a stop signal is handled with the context unchanged,
any type other than play and stop is not handled with the context unchanged,
and a play signal changes the start offset and no other field (the call is
undefined when the converted start range is not a u32). -/
theorem event_handler_frame (ctx : GF_FileInCtx) (t p code : Nat) (ty : GF_FEventType) (r : ℚ)
    (ht : some t ≠ ctx.pid) :
    filein_process_event ctx { on_pid := none, type := ty, start_range := r }
      = some (ctx, false)
    ∧ filein_process_event ctx { on_pid := some t, type := ty, start_range := r }
      = some (ctx, false)
    ∧ filein_process_event { ctx with pid := some p }
        { on_pid := some p, type := GF_FEventType.GF_FEVT_STOP, start_range := r }
      = some ({ ctx with pid := some p }, true)
    ∧ filein_process_event { ctx with pid := some p }
        { on_pid := some p, type := GF_FEventType.other code, start_range := r }
      = some ({ ctx with pid := some p }, false)
    ∧ filein_process_event { ctx with pid := some p }
        { on_pid := some p, type := GF_FEventType.GF_FEVT_PLAY, start_range := r }
      = (double_to_u32 (double_mul 1000 r)).map
          (fun v => ({ ctx with pid := some p, start := v }, true)) := by
  refine ⟨rfl, ?_, ?_, ?_, ?_⟩
  · unfold filein_process_event
    simp only [ne_eq, ht, not_false_eq_true, if_true]
  · unfold filein_process_event
    simp only [ne_eq, not_true_eq_false, if_false]
  · unfold filein_process_event
    simp only [ne_eq, not_true_eq_false, if_false]
  · unfold filein_process_event
    simp only [ne_eq, not_true_eq_false, if_false]
    cases double_to_u32 (double_mul 1000 r) <;> rfl

theorem event_handler_frame_witness :
    filein_process_event (freshCtx none 16)
        { on_pid := none, type := GF_FEventType.GF_FEVT_PLAY, start_range := 5 / 2 }
      = some (freshCtx none 16, false)
    ∧ filein_process_event (freshCtx none 16)
        { on_pid := some 3, type := GF_FEventType.GF_FEVT_PLAY, start_range := 5 / 2 }
      = some (freshCtx none 16, false)
    ∧ filein_process_event { freshCtx none 16 with pid := some 1 }
        { on_pid := some 1, type := GF_FEventType.GF_FEVT_STOP, start_range := 5 / 2 }
      = some ({ freshCtx none 16 with pid := some 1 }, true)
    ∧ filein_process_event { freshCtx none 16 with pid := some 1 }
        { on_pid := some 1, type := GF_FEventType.other 7, start_range := 5 / 2 }
      = some ({ freshCtx none 16 with pid := some 1 }, false)
    ∧ filein_process_event { freshCtx none 16 with pid := some 1 }
        { on_pid := some 1, type := GF_FEventType.GF_FEVT_PLAY, start_range := 5 / 2 }
      = (double_to_u32 (double_mul 1000 (5 / 2))).map
          (fun v => ({ freshCtx none 16 with pid := some 1, start := v }, true)) :=
  event_handler_frame (freshCtx none 16) 3 1 7 GF_FEventType.GF_FEVT_PLAY (5 / 2) (by decide)

/-! ## Invariants over sequences of calls -/

theorem declare_pid_pid (h : Host) (url : List Nat) (lf mt pd : Option (List Nat)) (n : Nat) :
    (filein_declare_pid h url lf mt pd n).pid = h.gf_filter_pid_new := rfl

theorem filein_initialize_frame (h : Host) (ctx : GF_FileInCtx) :
    ( filein_initialize h ctx).1.pid = ctx.pid
    ∧ ( filein_initialize h ctx).1.start = ctx.start
    ∧ sentPackets ( filein_initialize h ctx).2.2 = []
    ∧ Effect.pid_new ∉ ( filein_initialize h ctx).2.2 := by
  unfold filein_initialize
  cases hs : ctx.src with
  | none => simp [sentPackets]
  | some s0 =>
    simp only
    split_ifs
    · simp [sentPackets]
    · cases h.gf_fopen _ <;> simp [sentPackets]

theorem filein_process_event_frame (ctx : GF_FileInCtx) (com : GF_FilterEvent)
    (r : GF_FileInCtx × Bool) (hr : filein_process_event ctx com = some r) :
    r.1.pid = ctx.pid ∧ (ctx.pid = none → r = (ctx, false)) := by
  unfold filein_process_event at hr
  cases ht : com.on_pid with
  | none =>
    simp only [ht, Option.some.injEq] at hr
    subst hr; exact ⟨rfl, fun _ => rfl⟩
  | some t =>
    simp only [ht] at hr
    by_cases hne : some t ≠ ctx.pid
    · simp only [hne, ne_eq, not_false_eq_true, if_true, Option.some.injEq] at hr
      subst hr; exact ⟨rfl, fun _ => rfl⟩
    · have heq : some t = ctx.pid := not_not.1 hne
      simp only [hne, if_false] at hr
      refine ⟨?_, fun hn => by rw [hn] at heq; cases heq⟩
      cases hty : com.type with
      | GF_FEVT_PLAY =>
        simp only [hty] at hr
        cases hd : double_to_u32 (double_mul 1000 com.start_range) with
        | none => simp [hd] at hr
        | some v =>
          simp only [hd, Option.some.injEq] at hr
          subst hr; rfl
      | GF_FEVT_STOP =>
        simp only [hty, Option.some.injEq] at hr
        subst hr; rfl
      | other c =>
        simp only [hty, Option.some.injEq] at hr
        subst hr; rfl

theorem sentPackets_fread (bs : Nat) (t : List Effect) :
    sentPackets (Effect.fread bs :: t) = sentPackets t := rfl

theorem filein_process_frame (h : Host) (ctx : GF_FileInCtx)
    (r : GF_FileInCtx × GF_Err × List Effect) (hr : filein_process h ctx = some r) :
    (ctx.pid ≠ none → r.1 = ctx ∧ r.2.2 = [])
    ∧ r.1.start = ctx.start
    ∧ (∀ pck ∈ sentPackets r.2.2, pck.cts = some ctx.start ∧ pck.sap = some 1
        ∧ pck.byte_offset = some 0 ∧ pck.framing = some (true, true))
    ∧ (ctx.pid = none → r.1.pid = h.gf_filter_pid_new) := by
  unfold filein_process at hr
  cases hpid : ctx.pid with
  | some p =>
    simp only [hpid, Option.some.injEq] at hr
    subst hr
    exact ⟨fun _ => ⟨rfl, rfl⟩, rfl, by simp [sentPackets], fun e => by cases e⟩
  | none =>
    simp only [hpid] at hr
    refine ⟨fun e => absurd rfl e, ?_⟩
    cases hb : ctx.block with
    | none => simp [hb] at hr
    | some block =>
      cases hf : ctx.file with
      | none => simp [hb, hf] at hr
      | some file =>
        cases hs : ctx.src with
        | none => simp [hb, hf, hs] at hr
        | some src =>
          simp only [hb, hf, hs, declare_pid_pid] at hr
          cases hp : h.gf_filter_pid_new with
          | none =>
            simp only [hp] at hr
            split_ifs at hr with hlen
            simp only [Option.some.injEq] at hr
            subst hr
            refine ⟨rfl, ?_, fun _ => rfl⟩
            intro pck hpck
            rw [sentPackets_fread, sentPackets_declare] at hpck
            cases hpck
          | some p =>
            simp only [hp] at hr
            split_ifs at hr with hlen hk
            · simp only [Option.some.injEq] at hr
              subst hr
              refine ⟨rfl, ?_, fun _ => rfl⟩
              intro pck hpck
              rw [sentPackets_append,
                sentPackets_pre _ _ _ (sentPackets_declare _ _ _ _ _ _)] at hpck
              simp only [sentPackets, List.nil_append, List.mem_singleton] at hpck
              rw [hpck]
              exact ⟨rfl, rfl, rfl, rfl⟩
            · simp only [Option.some.injEq] at hr
              subst hr
              refine ⟨rfl, ?_, fun _ => rfl⟩
              intro pck hpck
              rw [sentPackets_pre _ _ _ (sentPackets_declare _ _ _ _ _ _)] at hpck
              cases hpck

theorem filein_finalize_frame (ctx : GF_FileInCtx) :
    (filein_finalize ctx).1 = ctx ∧ sentPackets (filein_finalize ctx).2 = []
    ∧ Effect.pid_new ∉ (filein_finalize ctx).2 := by
  unfold filein_finalize
  cases ctx.file <;> cases ctx.block <;> simp [sentPackets]

/-- One call keeps: no PID yet implies start offset 0; and every packet it
sends carries composition time 0. -/
theorem step_call_start_zero (c : Call) (ctx ctx1 : GF_FileInCtx) (t : List Effect)
    (hs : step_call c ctx = some (ctx1, t)) (hinv : ctx.pid = none → ctx.start = 0) :
    (ctx1.pid = none → ctx1.start = 0) ∧ ∀ pck ∈ sentPackets t, pck.cts = some 0 := by
  cases c with
  | init h =>
    simp only [step_call, Option.some.injEq, Prod.mk.injEq] at hs
    obtain ⟨h1, h2⟩ := hs
    obtain ⟨hp, hst, hsent, -⟩ := filein_initialize_frame h ctx
    subst h1 h2
    refine ⟨fun e => ?_, fun pck hpck => ?_⟩
    · rw [hst]; exact hinv (hp ▸ e)
    · rw [hsent] at hpck; cases hpck
  | process h =>
    simp only [step_call, Option.map_eq_some'] at hs
    obtain ⟨r, hr, hr2⟩ := hs
    obtain ⟨hsome, hst, hsent, -⟩ := filein_process_frame h ctx r hr
    simp only [Prod.mk.injEq] at hr2
    obtain ⟨h1, h2⟩ := hr2
    subst h1 h2
    by_cases hpid : ctx.pid = none
    · refine ⟨fun _ => by rw [hst]; exact hinv hpid, fun pck hpck => ?_⟩
      rw [(hsent pck hpck).1, hinv hpid]
    · obtain ⟨e1, e2⟩ := hsome hpid
      refine ⟨fun e => ?_, fun pck hpck => ?_⟩
      · rw [e1] at e; exact absurd e hpid
      · rw [e2] at hpck; cases hpck
  | event com =>
    simp only [step_call, Option.map_eq_some'] at hs
    obtain ⟨r, hr, hr2⟩ := hs
    obtain ⟨hp, hnone⟩ := filein_process_event_frame ctx com r hr
    simp only [Prod.mk.injEq] at hr2
    obtain ⟨h1, h2⟩ := hr2
    subst h1 h2
    refine ⟨fun e => ?_, fun pck hpck => by cases hpck⟩
    have hc : ctx.pid = none := hp ▸ e
    rw [hnone hc]; exact hinv hc
  | fini =>
    simp only [step_call, Option.some.injEq] at hs
    obtain ⟨h1, h2, -⟩ := filein_finalize_frame ctx
    rw [hs] at h1 h2
    simp only at h1 h2
    subst h1
    refine ⟨hinv, fun pck hpck => ?_⟩
    rw [h2] at hpck; cases hpck

theorem run_calls_start_zero : ∀ (cs : List Call) (ctx : GF_FileInCtx)
    (r : GF_FileInCtx × List Effect), run_calls cs ctx = some r →
    (ctx.pid = none → ctx.start = 0) →
    (r.1.pid = none → r.1.start = 0) ∧ ∀ pck ∈ sentPackets r.2, pck.cts = some 0 := by
  intro cs
  induction cs with
  | nil =>
    intro ctx r hr hinv
    simp only [run_calls, Option.some.injEq] at hr
    subst hr
    exact ⟨hinv, fun pck hpck => by cases hpck⟩
  | cons c cs ih =>
    intro ctx r hr hinv
    simp only [run_calls] at hr
    cases hstep : step_call c ctx with
    | none => simp [hstep] at hr
    | some r1 =>
      obtain ⟨ctx1, t⟩ := r1
      simp only [hstep] at hr
      cases hrest : run_calls cs ctx1 with
      | none => simp [hrest] at hr
      | some r2 =>
        obtain ⟨ctx2, ts⟩ := r2
        simp only [hrest, Option.some.injEq] at hr
        subst hr
        obtain ⟨hinv1, hp1⟩ := step_call_start_zero c ctx ctx1 t hstep hinv
        obtain ⟨hinv2, hp2⟩ := ih ctx1 (ctx2, ts) hrest hinv1
        refine ⟨hinv2, fun pck hpck => ?_⟩
        rw [sentPackets_append, List.mem_append] at hpck
        rcases hpck with hpck | hpck
        · exact hp1 pck hpck
        · exact hp2 pck hpck

/-- One call on a context that has its PID keeps the PID and creates none; a
call other than process keeps the PID field whatever it is. -/
theorem step_call_pid (c : Call) (ctx ctx1 : GF_FileInCtx) (t : List Effect)
    (hs : step_call c ctx = some (ctx1, t)) (hc : c.isProcess = false ∨ ctx.pid ≠ none) :
    ctx1.pid = ctx.pid ∧ Effect.pid_new ∉ t := by
  cases c with
  | init h =>
    simp only [step_call, Option.some.injEq, Prod.mk.injEq] at hs
    obtain ⟨h1, h2⟩ := hs
    obtain ⟨hp, -, -, hnew⟩ := filein_initialize_frame h ctx
    subst h1 h2
    exact ⟨hp, hnew⟩
  | process h =>
    have hpid : ctx.pid ≠ none := by
      rcases hc with hc | hc
      · simp [Call.isProcess] at hc
      · exact hc
    simp only [step_call, Option.map_eq_some'] at hs
    obtain ⟨r, hr, hr2⟩ := hs
    obtain ⟨hsome, -, -, -⟩ := filein_process_frame h ctx r hr
    simp only [Prod.mk.injEq] at hr2
    obtain ⟨h1, h2⟩ := hr2
    subst h1 h2
    obtain ⟨e1, e2⟩ := hsome hpid
    rw [e1, e2]
    exact ⟨rfl, by simp⟩
  | event com =>
    simp only [step_call, Option.map_eq_some'] at hs
    obtain ⟨r, hr, hr2⟩ := hs
    obtain ⟨hp, -⟩ := filein_process_event_frame ctx com r hr
    simp only [Prod.mk.injEq] at hr2
    obtain ⟨h1, h2⟩ := hr2
    subst h1 h2
    exact ⟨hp, by simp⟩
  | fini =>
    simp only [step_call, Option.some.injEq] at hs
    obtain ⟨h1, -, h3⟩ := filein_finalize_frame ctx
    rw [hs] at h1 h3
    simp only at h1 h3
    subst h1
    exact ⟨rfl, h3⟩

theorem run_calls_pid : ∀ (cs : List Call) (ctx : GF_FileInCtx)
    (r : GF_FileInCtx × List Effect), run_calls cs ctx = some r →
    ((∀ c ∈ cs, c.isProcess = false) ∨ ctx.pid ≠ none) →
    r.1.pid = ctx.pid ∧ Effect.pid_new ∉ r.2 := by
  intro cs
  induction cs with
  | nil =>
    intro ctx r hr _
    simp only [run_calls, Option.some.injEq] at hr
    subst hr
    exact ⟨rfl, by simp⟩
  | cons c cs ih =>
    intro ctx r hr hc
    simp only [run_calls] at hr
    cases hstep : step_call c ctx with
    | none => simp [hstep] at hr
    | some r1 =>
      obtain ⟨ctx1, t⟩ := r1
      simp only [hstep] at hr
      cases hrest : run_calls cs ctx1 with
      | none => simp [hrest] at hr
      | some r2 =>
        obtain ⟨ctx2, ts⟩ := r2
        simp only [hrest, Option.some.injEq] at hr
        subst hr
        have hc1 : c.isProcess = false ∨ ctx.pid ≠ none := by
          rcases hc with hc | hc
          · exact Or.inl (hc c (List.mem_cons_self _ _))
          · exact Or.inr hc
        obtain ⟨hp1, hn1⟩ := step_call_pid c ctx ctx1 t hstep hc1
        have hc2 : (∀ c ∈ cs, c.isProcess = false) ∨ ctx1.pid ≠ none := by
          rcases hc with hc | hc
          · exact Or.inl (fun c hcm => hc c (List.mem_cons_of_mem _ hcm))
          · exact Or.inr (by rw [hp1]; exact hc)
        obtain ⟨hp2, hn2⟩ := ih ctx1 (ctx2, ts) hrest hc2
        refine ⟨by rw [hp2, hp1], ?_⟩
        simp only [List.mem_append, not_or]
        exact ⟨hn1, hn2⟩

/-! ## Port creation -/

theorem count_pid_new_declare (h : Host) (url : List Nat) (lf mt pd : Option (List Nat))
    (n : Nat) : (filein_declare_pid h url lf mt pd n).trace.count Effect.pid_new = 1 := by
  unfold filein_declare_pid
  simp only
  generalize (match mt, pd with
    | none, some pd => filein_sniff (cstr pd 0)
    | m, _ => m) = m
  cases lf <;> cases (filein_ext_scan url).2 <;> cases m <;> simp [List.count_cons]

theorem propOf_append_none (k : PidProp) (a b : List Effect) (hb : propOf k b = none) :
    propOf k (a ++ b) = propOf k a := by
  induction a with
  | nil => simpa using hb
  | cons e es ih =>
    show propOf k (e :: (es ++ b)) = propOf k (e :: es)
    cases e <;> simp only [propOf, ih]

theorem propOf_fread (k : PidProp) (n : Nat) (t : List Effect) :
    propOf k (Effect.fread n :: t) = propOf k t := rfl

/-- The first filein_process call when the host delivers the PID, whether or
not it delivers the packet: the PID is stored, the PID properties are those
set by filein_declare_pid, and the PID is created once. -/
theorem filein_process_port (h : Host) (ctx : GF_FileInCtx) (block src : List Nat) (file : FILE)
    (p : Nat) (hpid : ctx.pid = none) (hb : ctx.block = some block) (hf : ctx.file = some file)
    (hs : ctx.src = some src)
    (hlen : ((file.content.drop file.pos).take ctx.block_size).length < block.length)
    (hp : h.gf_filter_pid_new = some p) :
    ∃ r,
      filein_process h ctx = some r
      ∧ r.1.pid = some p
      ∧ (∀ k, propOf k r.2.2 = propOf k
          (filein_declare_pid h src (some src) none
            (some ((((file.content.drop file.pos).take ctx.block_size)
              ++ block.drop ((file.content.drop file.pos).take ctx.block_size).length).set
                ((file.content.drop file.pos).take ctx.block_size).length 0))
            ((file.content.drop file.pos).take ctx.block_size).length).trace)
      ∧ r.2.2.count Effect.pid_new = 1 := by
  unfold filein_process
  cases hk : h.gf_filter_pck_new_shared with
  | true =>
    simp only [hpid, hb, hf, hs, hlen, if_true, declare_pid_pid, hp, hk]
    refine ⟨_, rfl, rfl, fun k => ?_, ?_⟩
    · dsimp only
      rw [propOf_append_none k _ [Effect.pck_send _, Effect.pid_set_eos p] rfl,
        List.cons_append, propOf_fread, propOf_append_none k _ [Effect.pck_new_shared p 0] rfl]
    · simp only [List.cons_append, List.append_assoc, List.count_cons, List.count_append,
        count_pid_new_declare]
      simp
  | false =>
    simp only [hpid, hb, hf, hs, hlen, if_true, declare_pid_pid, hp, hk]
    refine ⟨_, rfl, rfl, fun k => ?_, ?_⟩
    · dsimp only
      rw [List.cons_append, propOf_fread, propOf_append_none k _ [Effect.pck_new_shared p 0] rfl]
    · simp only [List.cons_append, List.append_assoc, List.count_cons, List.count_append,
        count_pid_new_declare]
      simp
theorem awaitsPort_iff (ctx : GF_FileInCtx) :
    awaitsPort ctx = true ↔ ctx.pid = none ∧ ∃ block file src, ctx.block = some block
      ∧ ctx.file = some file ∧ ctx.src = some src ∧ ctx.block_size < block.length := by
  unfold awaitsPort
  cases ctx.pid <;> cases ctx.file <;> cases ctx.src <;> cases ctx.block <;> simp

theorem block_after_read_length (d b : List Nat) (h : d.length < b.length) :
    ((d ++ b.drop d.length).set d.length 0).length = b.length := by
  simp only [List.length_set, List.length_append, List.length_drop]
  omega

/-- A process call during which the host returns no PID, on a context that
awaits its PID: the call is defined and the context still awaits its PID. -/
theorem filein_process_no_port (h : Host) (ctx : GF_FileInCtx) (hready : awaitsPort ctx = true)
    (hp : h.gf_filter_pid_new = none) :
    ∃ r, filein_process h ctx = some r ∧ awaitsPort r.1 = true := by
  obtain ⟨hpid, block, file, src, hb, hf, hs, hbl⟩ := (awaitsPort_iff ctx).1 hready
  have hd : ((file.content.drop file.pos).take ctx.block_size).length ≤ ctx.block_size := by
    simp only [List.length_take]; omega
  have hlen : ((file.content.drop file.pos).take ctx.block_size).length < block.length := by
    omega
  unfold filein_process
  simp only [hpid, hb, hf, hs, hlen, if_true, declare_pid_pid, hp]
  refine ⟨_, rfl, ?_⟩
  rw [awaitsPort_iff]
  refine ⟨rfl, _, _, _, rfl, rfl, rfl, ?_⟩
  rw [block_after_read_length _ _ hlen]
  exact hbl

/-- A process call during which the host returns a PID, on a context that
awaits its PID: the call is defined, stores the PID and creates it once. -/
theorem filein_process_gets_port (h : Host) (ctx : GF_FileInCtx) (p : Nat)
    (hready : awaitsPort ctx = true) (hp : h.gf_filter_pid_new = some p) :
    ∃ r, filein_process h ctx = some r ∧ r.1.pid = some p
      ∧ r.2.2.count Effect.pid_new = 1 := by
  obtain ⟨hpid, block, file, src, hb, hf, hs, hbl⟩ := (awaitsPort_iff ctx).1 hready
  have hd : ((file.content.drop file.pos).take ctx.block_size).length ≤ ctx.block_size := by
    simp only [List.length_take]; omega
  have hlen : ((file.content.drop file.pos).take ctx.block_size).length < block.length := by
    omega
  obtain ⟨r, hr, hrpid, -, hcount⟩ := filein_process_port h ctx block src file p hpid hb hf hs
    hlen hp
  exact ⟨r, hr, hrpid, hcount⟩

/-- Events and process calls without a PID from the host, in any number and
order, on a context that awaits its PID: the run is defined and the context
still awaits its PID. -/
theorem run_calls_no_port : ∀ (cs : List Call) (ctx : GF_FileInCtx),
    awaitsPort ctx = true → (∀ c ∈ cs, c.leavesNoPort = true) →
    ∃ r, run_calls cs ctx = some r ∧ awaitsPort r.1 = true := by
  intro cs
  induction cs with
  | nil => intro ctx hready _; exact ⟨(ctx, []), rfl, hready⟩
  | cons c cs ih =>
    intro ctx hready hcs
    have hc := hcs c (List.mem_cons_self _ _)
    have hrest : ∀ c ∈ cs, c.leavesNoPort = true :=
      fun c hm => hcs c (List.mem_cons_of_mem _ hm)
    have hstep : ∃ ctx1 t, step_call c ctx = some (ctx1, t) ∧ awaitsPort ctx1 = true := by
      cases c with
      | init h => simp [Call.leavesNoPort] at hc
      | fini => simp [Call.leavesNoPort] at hc
      | event com =>
        have hpid : ctx.pid = none := ((awaitsPort_iff ctx).1 hready).1
        have hev : filein_process_event ctx com = some (ctx, false) := by
          unfold filein_process_event
          cases com.on_pid with
          | none => rfl
          | some t => simp [hpid]
        exact ⟨ctx, [], by simp [step_call, hev], hready⟩
      | process h =>
        have hp : h.gf_filter_pid_new = none := by
          simpa [Call.leavesNoPort] using hc
        obtain ⟨r, hr, hr2⟩ := filein_process_no_port h ctx hready hp
        exact ⟨r.1, r.2.2, by simp [step_call, hr], hr2⟩
    obtain ⟨ctx1, t, hs1, hready1⟩ := hstep
    obtain ⟨r2, hr2, hready2⟩ := ih ctx1 hready1 hrest
    refine ⟨(r2.1, t ++ r2.2), ?_, hready2⟩
    simp only [run_calls, hs1, hr2]

theorem awaitsPort_initialized (h0 : Host) (src : Option (List Nat)) (bs : Nat)
    (ctx : GF_FileInCtx) (tr : List Effect) (hbs : bs + 1 < 2 ^ 32)
    (hinit : filein_initialize h0 (freshCtx src bs) = (ctx, GF_Err.GF_OK, tr)) :
    awaitsPort ctx = true := by
  obtain ⟨s, content, hsrc, hctx⟩ := filein_initialize_ok h0 _ ctx tr hinit
  have hmod : (bs + 1) % 2 ^ 32 = bs + 1 := Nat.mod_eq_of_lt hbs
  simp only [freshCtx, hmod] at hctx
  rw [awaitsPort_iff, hctx]
  exact ⟨rfl, _, _, _, rfl, rfl, rfl, by simp⟩

theorem run_calls_append : ∀ (a b : List Call) (ctx : GF_FileInCtx)
    (r1 r2 : GF_FileInCtx × List Effect), run_calls a ctx = some r1 →
    run_calls b r1.1 = some r2 → run_calls (a ++ b) ctx = some (r2.1, r1.2 ++ r2.2) := by
  intro a
  induction a with
  | nil =>
    intro b ctx r1 r2 h1 h2
    simp only [run_calls, Option.some.injEq] at h1
    subst h1
    simpa using h2
  | cons c cs ih =>
    intro b ctx r1 r2 h1 h2
    simp only [run_calls] at h1
    cases hstep : step_call c ctx with
    | none => simp [hstep] at h1
    | some x =>
      obtain ⟨ctx1, t⟩ := x
      simp only [hstep] at h1
      cases hrest : run_calls cs ctx1 with
      | none => simp [hrest] at h1
      | some y =>
        obtain ⟨ctx2, ts⟩ := y
        simp only [hrest, Option.some.injEq] at h1
        subst h1
        have hthis := ih b ctx1 (ctx2, ts) r2 hrest h2
        show run_calls (c :: (cs ++ b)) ctx = some (r2.1, (t ++ ts) ++ r2.2)
        simp only [run_calls, hstep, hthis, List.append_assoc]

/-- C14, as the code has it. From a fresh context the PID stays NULL through
any calls other than process. On a successfully initialized context
(block_size + 1 below 2^32) it stays NULL through any events and any process
calls during which the host returns no PID, all of which are defined; the
first process call during which the host returns a PID is defined, stores that
PID and creates it once, whether or not its read returned any byte. From a
context that has its PID, any sequence of initialize, process, event and
finalize calls keeps that PID and never creates another. -/
theorem port_created_on_first_process (h0 h : Host) (src : Option (List Nat)) (bs : Nat)
    (ctx : GF_FileInCtx) (tr : List Effect) (p q : Nat) (pre0 pre post : List Call)
    (c3 : GF_FileInCtx) (r0 r3 : GF_FileInCtx × List Effect) (hbs : bs + 1 < 2 ^ 32)
    (hinit : filein_initialize h0 (freshCtx src bs) = (ctx, GF_Err.GF_OK, tr))
    (hp : h.gf_filter_pid_new = some p)
    (hpre0 : ∀ c ∈ pre0, c.isProcess = false)
    (hrun0 : run_calls pre0 (freshCtx src bs) = some r0)
    (hpre : ∀ c ∈ pre, c.leavesNoPort = true)
    (hc3 : c3.pid = some q) (hpost : run_calls post c3 = some r3) :
    (r0.1.pid = none ∧ Effect.pid_new ∉ r0.2)
    ∧ ctx.pid = none
    ∧ (∃ r1 r, run_calls pre ctx = some r1 ∧ r1.1.pid = none
        ∧ filein_process h r1.1 = some r ∧ r.1.pid = some p
        ∧ r.2.2.count Effect.pid_new = 1
        ∧ run_calls (pre ++ [Call.process h]) ctx = some (r.1, r1.2 ++ r.2.2))
    ∧ (r3.1.pid = some q ∧ Effect.pid_new ∉ r3.2) := by
  have hready := awaitsPort_initialized h0 src bs ctx tr hbs hinit
  obtain ⟨r1, hr1, hready1⟩ := run_calls_no_port pre ctx hready hpre
  obtain ⟨r, hr, hrpid, hcount⟩ := filein_process_gets_port h r1.1 p hready1 hp
  refine ⟨run_calls_pid pre0 _ r0 hrun0 (Or.inl hpre0), ((awaitsPort_iff ctx).1 hready).1,
    ⟨r1, r, hr1, ((awaitsPort_iff r1.1).1 hready1).1, hr, hrpid, hcount, ?_⟩, ?_⟩
  · have hlast : run_calls [Call.process h] r1.1 = some (r.1, r.2.2) := by
      simp [run_calls, step_call, hr]
    exact run_calls_append pre [Call.process h] ctx r1 (r.1, r.2.2) hr1 hlast
  · have := run_calls_pid post c3 r3 hpost (Or.inr (by rw [hc3]; exact Option.some_ne_none q))
    rw [hc3] at this
    exact this

/-- C14 as stated fails: on an empty file the first process call reads no byte
(the read position stays 0) and still creates the PID. -/
theorem port_created_on_first_process_counterexample :
    ( filein_initialize ⟨fun _ => some [], fun _ => true, none, false⟩
        (freshCtx (some (bytes "empty.x3d")) 16)).2.1 = GF_Err.GF_OK
    ∧ (filein_process ⟨fun _ => none, fun _ => false, some 1, true⟩
        ( filein_initialize ⟨fun _ => some [], fun _ => true, none, false⟩
          (freshCtx (some (bytes "empty.x3d")) 16)).1).map
        (fun r => (r.1.file.map (fun f => f.pos), r.1.pid, r.2.2.count Effect.pid_new))
      = some (some 0, some 1, 1) := by
  decide

theorem port_created_on_first_process_witness :
    ((freshCtx (some (bytes "test.x3d")) 4).pid = none
      ∧ Effect.pid_new ∉ ([] : List Effect))
    ∧ ( filein_initialize ⟨fun _ => some (bytes "0123456789"), fun _ => true, none, false⟩
        (freshCtx (some (bytes "test.x3d")) 4)).1.pid = none
    ∧ (∃ r1 r, run_calls
          [Call.process ⟨fun _ => none, fun _ => false, none, true⟩,
           Call.event
             { on_pid := some 1, type := GF_FEventType.GF_FEVT_PLAY, start_range := 5 / 2 },
           Call.process ⟨fun _ => none, fun _ => false, none, true⟩]
          ( filein_initialize ⟨fun _ => some (bytes "0123456789"), fun _ => true, none, false⟩
            (freshCtx (some (bytes "test.x3d")) 4)).1 = some r1
        ∧ r1.1.pid = none
        ∧ filein_process ⟨fun _ => none, fun _ => false, some 1, true⟩ r1.1 = some r
        ∧ r.1.pid = some 1
        ∧ r.2.2.count Effect.pid_new = 1
        ∧ run_calls
            ([Call.process ⟨fun _ => none, fun _ => false, none, true⟩,
              Call.event
                { on_pid := some 1, type := GF_FEventType.GF_FEVT_PLAY, start_range := 5 / 2 },
              Call.process ⟨fun _ => none, fun _ => false, none, true⟩]
              ++ [Call.process ⟨fun _ => none, fun _ => false, some 1, true⟩])
            ( filein_initialize ⟨fun _ => some (bytes "0123456789"), fun _ => true, none, false⟩
              (freshCtx (some (bytes "test.x3d")) 4)).1 = some (r.1, r1.2 ++ r.2.2))
    ∧ (((run_calls
          [Call.process ⟨fun _ => none, fun _ => false, some 2, true⟩, Call.fini,
           Call.init ⟨fun _ => none, fun _ => false, some 3, true⟩]
          { freshCtx (some (bytes "test.x3d")) 4 with pid := some 1 }).getD
            (freshCtx none 0, [])).1.pid = some 1
      ∧ Effect.pid_new ∉ ((run_calls
          [Call.process ⟨fun _ => none, fun _ => false, some 2, true⟩, Call.fini,
           Call.init ⟨fun _ => none, fun _ => false, some 3, true⟩]
          { freshCtx (some (bytes "test.x3d")) 4 with pid := some 1 }).getD
            (freshCtx none 0, [])).2) :=
  port_created_on_first_process
    ⟨fun _ => some (bytes "0123456789"), fun _ => true, none, false⟩
    ⟨fun _ => none, fun _ => false, some 1, true⟩ (some (bytes "test.x3d")) 4
    ( filein_initialize ⟨fun _ => some (bytes "0123456789"), fun _ => true, none, false⟩
      (freshCtx (some (bytes "test.x3d")) 4)).1
    ( filein_initialize ⟨fun _ => some (bytes "0123456789"), fun _ => true, none, false⟩
      (freshCtx (some (bytes "test.x3d")) 4)).2.2 1 1
    [Call.event { on_pid := some 1, type := GF_FEventType.GF_FEVT_PLAY, start_range := 5 / 2 },
     Call.fini]
    [Call.process ⟨fun _ => none, fun _ => false, none, true⟩,
     Call.event { on_pid := some 1, type := GF_FEventType.GF_FEVT_PLAY, start_range := 5 / 2 },
     Call.process ⟨fun _ => none, fun _ => false, none, true⟩]
    [Call.process ⟨fun _ => none, fun _ => false, some 2, true⟩, Call.fini,
     Call.init ⟨fun _ => none, fun _ => false, some 3, true⟩]
    { freshCtx (some (bytes "test.x3d")) 4 with pid := some 1 }
    (freshCtx (some (bytes "test.x3d")) 4, [])
    ((run_calls
          [Call.process ⟨fun _ => none, fun _ => false, some 2, true⟩, Call.fini,
           Call.init ⟨fun _ => none, fun _ => false, some 3, true⟩]
          { freshCtx (some (bytes "test.x3d")) 4 with pid := some 1 }).getD
            (freshCtx none 0, []))
    (by decide) (by decide) rfl (by decide) (by decide) (by decide) rfl (by decide)

/-! ## Start offset while there is no PID -/

/-- C20: while the context has no PID, filein_process_event returns not
handled for every event and leaves the context, start offset included, as it
is; so after any sequence of calls from a fresh context the start offset is 0
as long as no PID exists, and every packet sent in such a sequence carries
composition time 0. -/
theorem start_zero_until_port (ctx : GF_FileInCtx) (com : GF_FilterEvent)
    (cs : List Call) (src : Option (List Nat)) (bs : Nat) (r : GF_FileInCtx × List Effect)
    (hpid : ctx.pid = none) (hrun : run_calls cs (freshCtx src bs) = some r) :
    filein_process_event ctx com = some (ctx, false)
    ∧ (r.1.pid ≠ none ∨ r.1.start = 0)
    ∧ ∀ pck ∈ sentPackets r.2, pck.cts = some 0 := by
  refine ⟨?_, ?_, ?_⟩
  · unfold filein_process_event
    cases com.on_pid with
    | none => rfl
    | some t => simp [hpid]
  · obtain ⟨hinv, -⟩ := run_calls_start_zero cs _ r hrun (fun _ => rfl)
    by_cases hp : r.1.pid = none
    · exact Or.inr (hinv hp)
    · exact Or.inl hp
  · exact (run_calls_start_zero cs _ r hrun (fun _ => rfl)).2

theorem start_zero_until_port_witness :
    filein_process_event (freshCtx none 16)
        { on_pid := some 1, type := GF_FEventType.GF_FEVT_PLAY, start_range := 5 / 2 }
      = some (freshCtx none 16, false)
    ∧ (((run_calls
          [Call.init ⟨fun _ => some (bytes "0123456789"), fun _ => true, none, false⟩,
           Call.event
             { on_pid := some 1, type := GF_FEventType.GF_FEVT_PLAY, start_range := 5 / 2 },
           Call.process ⟨fun _ => none, fun _ => false, some 1, true⟩]
          (freshCtx (some (bytes "test.x3d")) 16)).getD (freshCtx none 0, [])).1.pid ≠ none
      ∨ ((run_calls
          [Call.init ⟨fun _ => some (bytes "0123456789"), fun _ => true, none, false⟩,
           Call.event
             { on_pid := some 1, type := GF_FEventType.GF_FEVT_PLAY, start_range := 5 / 2 },
           Call.process ⟨fun _ => none, fun _ => false, some 1, true⟩]
          (freshCtx (some (bytes "test.x3d")) 16)).getD (freshCtx none 0, [])).1.start = 0)
    ∧ ∀ pck ∈ sentPackets ((run_calls
          [Call.init ⟨fun _ => some (bytes "0123456789"), fun _ => true, none, false⟩,
           Call.event
             { on_pid := some 1, type := GF_FEventType.GF_FEVT_PLAY, start_range := 5 / 2 },
           Call.process ⟨fun _ => none, fun _ => false, some 1, true⟩]
          (freshCtx (some (bytes "test.x3d")) 16)).getD (freshCtx none 0, [])).2,
        pck.cts = some 0 :=
  start_zero_until_port (freshCtx none 16)
    { on_pid := some 1, type := GF_FEventType.GF_FEVT_PLAY, start_range := 5 / 2 }
    [Call.init ⟨fun _ => some (bytes "0123456789"), fun _ => true, none, false⟩,
     Call.event { on_pid := some 1, type := GF_FEventType.GF_FEVT_PLAY, start_range := 5 / 2 },
     Call.process ⟨fun _ => none, fun _ => false, some 1, true⟩]
    (some (bytes "test.x3d")) 16
    ((run_calls
          [Call.init ⟨fun _ => some (bytes "0123456789"), fun _ => true, none, false⟩,
           Call.event
             { on_pid := some 1, type := GF_FEventType.GF_FEVT_PLAY, start_range := 5 / 2 },
           Call.process ⟨fun _ => none, fun _ => false, some 1, true⟩]
          (freshCtx (some (bytes "test.x3d")) 16)).getD (freshCtx none 0, []))
    rfl (by decide)

/-! ## The extension as a function of the locator -/

/-- C16: every packet sent by a filein_process call, on any context and with
any host answers, is tagged with composition time equal to the start offset
the context holds at the call, SAP 1, byte offset 0, and framing start = true,
end = true; and on a context that filein_initialize has set up successfully
(no PID yet, block_size + 1 below 2^32) the first filein_process call on which
the host delivers PID and packet sends exactly one such packet, whatever the
content of the resource. -/
theorem packet_tags (h0 h h2 : Host) (ctx0 ctx c : GF_FileInCtx) (tr : List Effect) (p : Nat)
    (r2 : GF_FileInCtx × GF_Err × List Effect)
    (hbs : ctx0.block_size + 1 < 2 ^ 32) (hpid0 : ctx0.pid = none)
    (hinit : filein_initialize h0 ctx0 = (ctx, GF_Err.GF_OK, tr))
    (hp : h.gf_filter_pid_new = some p) (hk : h.gf_filter_pck_new_shared = true)
    (hr2 : filein_process h2 c = some r2) :
    (∀ pck ∈ sentPackets r2.2.2, pck.cts = some c.start ∧ pck.sap = some 1
        ∧ pck.byte_offset = some 0 ∧ pck.framing = some (true, true))
    ∧ ∃ ctx1 t pck,
      filein_process h ctx = some (ctx1, GF_Err.GF_EOS, t) ∧ sentPackets t = [pck]
      ∧ ctx.start = ctx0.start
      ∧ pck.cts = some ctx.start ∧ pck.sap = some 1 ∧ pck.byte_offset = some 0
      ∧ pck.framing = some (true, true) := by
  refine ⟨(filein_process_frame h2 c r2 hr2).2.2.1, ?_⟩
  obtain ⟨s, content, hsrc, hctx⟩ := filein_initialize_ok h0 ctx0 ctx tr hinit
  have hmod : (ctx0.block_size + 1) % 2 ^ 32 = ctx0.block_size + 1 := Nat.mod_eq_of_lt hbs
  rw [hmod] at hctx
  have hlen : ((content.drop 0).take ctx.block_size).length
      < (List.replicate (ctx0.block_size + 1) 0).length := by
    rw [hctx]
    simp only [List.length_take, List.length_replicate]
    omega
  have hfirst := filein_process_first h ctx (List.replicate (ctx0.block_size + 1) 0) s
    { content := content, pos := 0 } p (by rw [hctx]; exact hpid0) (by rw [hctx]) (by rw [hctx])
    (by rw [hctx]) hlen hp hk
  refine ⟨_, _, ?pck, hfirst, ?hsent, by rw [hctx], ?_, ?_, ?_, ?_⟩
  case hsent =>
    rw [sentPackets_append, sentPackets_pre _ _ _ (sentPackets_declare _ _ _ _ _ _)]
    exact rfl
  all_goals rfl

theorem packet_tags_witness :
    (∀ pck ∈ sentPackets
        ((filein_process ⟨fun _ => none, fun _ => false, some 1, true⟩
          ( filein_initialize ⟨fun _ => some [], fun _ => true, none, false⟩
            { freshCtx (some (bytes "test.x3d")) 16 with start := 7 }).1).getD
          (freshCtx none 0, GF_Err.GF_OK, [])).2.2,
        pck.cts = some
            ( filein_initialize ⟨fun _ => some [], fun _ => true, none, false⟩
              { freshCtx (some (bytes "test.x3d")) 16 with start := 7 }).1.start
          ∧ pck.sap = some 1 ∧ pck.byte_offset = some 0 ∧ pck.framing = some (true, true))
    ∧ ∃ ctx1 t pck,
      filein_process ⟨fun _ => none, fun _ => false, some 1, true⟩
          ( filein_initialize ⟨fun _ => some (bytes "0123456789"), fun _ => true, none, false⟩
            { freshCtx (some (bytes "test.x3d")) 16 with start := 2500 }).1
        = some (ctx1, GF_Err.GF_EOS, t)
      ∧ sentPackets t = [pck]
      ∧ ( filein_initialize ⟨fun _ => some (bytes "0123456789"), fun _ => true, none, false⟩
            { freshCtx (some (bytes "test.x3d")) 16 with start := 2500 }).1.start
          = ({ freshCtx (some (bytes "test.x3d")) 16 with start := 2500 } : GF_FileInCtx).start
      ∧ pck.cts = some
          ( filein_initialize ⟨fun _ => some (bytes "0123456789"), fun _ => true, none, false⟩
            { freshCtx (some (bytes "test.x3d")) 16 with start := 2500 }).1.start
      ∧ pck.sap = some 1 ∧ pck.byte_offset = some 0 ∧ pck.framing = some (true, true) :=
  packet_tags ⟨fun _ => some (bytes "0123456789"), fun _ => true, none, false⟩
    ⟨fun _ => none, fun _ => false, some 1, true⟩
    ⟨fun _ => none, fun _ => false, some 1, true⟩
    { freshCtx (some (bytes "test.x3d")) 16 with start := 2500 }
    ( filein_initialize ⟨fun _ => some (bytes "0123456789"), fun _ => true, none, false⟩
      { freshCtx (some (bytes "test.x3d")) 16 with start := 2500 }).1
    ( filein_initialize ⟨fun _ => some [], fun _ => true, none, false⟩
      { freshCtx (some (bytes "test.x3d")) 16 with start := 7 }).1
    ( filein_initialize ⟨fun _ => some (bytes "0123456789"), fun _ => true, none, false⟩
      { freshCtx (some (bytes "test.x3d")) 16 with start := 2500 }).2.2 1
    ((filein_process ⟨fun _ => none, fun _ => false, some 1, true⟩
      ( filein_initialize ⟨fun _ => some [], fun _ => true, none, false⟩
        { freshCtx (some (bytes "test.x3d")) 16 with start := 7 }).1).getD
      (freshCtx none 0, GF_Err.GF_OK, []))
    (by decide) (by decide) (by decide) rfl rfl (by decide)

/-! ## filein_finalize -/

/-- C17: on a fresh context on which filein_initialize was never run, and on
the context left by a filein_initialize that failed (whatever the failure),
filein_finalize makes no host call, so it closes no file and frees no buffer,
and returns the context as it is. -/
theorem finalize_after_failure (h : Host) (src : Option (List Nat)) (bs : Nat) :
    filein_finalize (freshCtx src bs) = (freshCtx src bs, [])
    ∧ (( filein_initialize h (freshCtx src bs)).2.1 = GF_Err.GF_OK
      ∨ filein_finalize ( filein_initialize h (freshCtx src bs)).1
          = (( filein_initialize h (freshCtx src bs)).1, [])) := by
  refine ⟨rfl, ?_⟩
  cases src with
  | none => exact Or.inr rfl
  | some s =>
    rw [filein_initialize_cases h (freshCtx (some s) bs) s rfl]
    by_cases hc : hasPrefixCI (cstr s 0) (bytes "file:/") = false ∧ bytes "://" <:+: cstr s 0
    · rw [if_pos hc]
      exact Or.inr rfl
    · rw [if_neg hc]
      cases h.gf_fopen (spec_local_path (cstr s 0)) with
      | none => exact Or.inr rfl
      | some content => exact Or.inl rfl

/-- C18, as the code has it: filein_finalize leaves the context as it is (it
clears neither the file handle nor the block pointer), so a second run makes
the same host calls as the first; a run closes the file once when the handle
is not NULL and frees the block once when it is not NULL, and it makes no host
call exactly when the context holds neither. -/
theorem finalize_repeats (ctx : GF_FileInCtx) :
    (filein_finalize ctx).1 = ctx
    ∧ filein_finalize (filein_finalize ctx).1 = filein_finalize ctx
    ∧ (filein_finalize ctx).2.count Effect.fclose = (if ctx.file.isSome then 1 else 0)
    ∧ (filein_finalize ctx).2.count Effect.free = (if ctx.block.isSome then 1 else 0)
    ∧ ((filein_finalize ctx).2 = [] ↔ (ctx.file = none ∧ ctx.block = none)) := by
  unfold filein_finalize
  cases ctx.file <;> cases ctx.block <;> simp [List.count_cons]

/-- C18 as stated fails: on an initialized context the first finalize closes
the file and frees the block, the context still holds both afterwards, and the
second finalize closes and frees again. -/
theorem finalize_repeats_counterexample :
    (filein_finalize
        ( filein_initialize ⟨fun _ => some (bytes "0123456789"), fun _ => true, none, false⟩
          (freshCtx (some (bytes "test.x3d")) 16)).1).2 = [Effect.fclose, Effect.free]
    ∧ (filein_finalize
        ( filein_initialize ⟨fun _ => some (bytes "0123456789"), fun _ => true, none, false⟩
          (freshCtx (some (bytes "test.x3d")) 16)).1).1.file.isSome = true
    ∧ (filein_finalize
        ( filein_initialize ⟨fun _ => some (bytes "0123456789"), fun _ => true, none, false⟩
          (freshCtx (some (bytes "test.x3d")) 16)).1).1.block.isSome = true
    ∧ (filein_finalize (filein_finalize
        ( filein_initialize ⟨fun _ => some (bytes "0123456789"), fun _ => true, none, false⟩
          (freshCtx (some (bytes "test.x3d")) 16)).1).1).2 = [Effect.fclose, Effect.free] := by
  decide

/-! ## Size of the block buffer -/

/-- C19 at the failing input block_size = 2^32 - 1: filein_initialize succeeds
and asks the allocator for (2^32 - 1 + 1) mod 2^32 = 0 bytes, so the block
buffer has length 0, not block_size + 1, and the first filein_process call
writes outside it (the model has no result for that call). -/
theorem block_alloc_at_failing_input :
    ( filein_initialize ⟨fun _ => some (bytes "0123456789"), fun _ => true, none, false⟩
        (freshCtx (some (bytes "test.x3d")) 4294967295)).2
      = (GF_Err.GF_OK, [Effect.fopen (bytes "test.x3d"), Effect.fseek_end, Effect.ftell,
          Effect.fseek_set, Effect.malloc 0])
    ∧ ( filein_initialize ⟨fun _ => some (bytes "0123456789"), fun _ => true, none, false⟩
        (freshCtx (some (bytes "test.x3d")) 4294967295)).1.block = some []
    ∧ filein_process ⟨fun _ => none, fun _ => false, some 1, true⟩
        ( filein_initialize ⟨fun _ => some (bytes "0123456789"), fun _ => true, none, false⟩
          (freshCtx (some (bytes "test.x3d")) 4294967295)).1 = none := by
  decide

end FileIn
